import Mathlib

set_option maxRecDepth 8000

/-!
Verification of the analysis core of the `dababy` infant-cry application
(`src/lib/cryDetection.ts`): the streaming cry-detection state machine
(`CryDetectionEngine`), the alert-to-diagnosis mapping (`CryDiagnosisEngine`),
and the persisted detection-history store (`CryStorage`).

Modelling conventions:
* JavaScript numbers are modelled by `ℝ` where real arithmetic (square roots,
  trigonometry) occurs, and by `ℚ` for fields that are only stored and
  compared.  The single reachable NaN (`calculateRMS` of a zero-length block,
  where `0 / 0` is NaN in JS) is modelled by `Option ℝ` with `none` = NaN.
* `localStorage` is modelled by explicit state passing: the parsed cry log is
  a `List CryInstance`, the per-id audio slots an association list.
* Wall-clock reads (`Date.now()`) are supplied by the caller as a `now`
  parameter, matching the source's synchronous, caller-driven cadence.
* The confirmation callback is a function into `Except ε Unit`; `.error`
  models a thrown JS exception.
-/

/-- Modelled from the spec (section 3): the `Alert.severity` /
`DetectionResult.riskLevel` severity scale of `audioAnalysis.ts`, a file this
repository does not ship under `src/`. -/
inductive Severity where
  | low
  | medium
  | high
  | critical
deriving DecidableEq, Repr

/-- The `RiskLevel` union of `cryDetection.ts` (same literals as `Severity`,
declared separately in the source). -/
inductive RiskLevel where
  | low
  | medium
  | high
  | critical
deriving DecidableEq, Repr

/-- Modelled from the spec (section 3): the `AudioFeatures` record of
`audioAnalysis.ts` (not under `src/`); field list as in the spec and as used
by `CryDetectionEngine.processCryDetection`.  The `rms` field is an
`Option ℝ` because `calculateRMS` can produce NaN (modelled `none`). -/
structure AudioFeatures where
  f0 : List ℝ
  f0Mean : ℝ
  f0Std : ℝ
  hnr : ℝ
  jitter : ℝ
  shimmer : ℝ
  rms : Option ℝ
  spectralCentroid : ℝ
  spectralFlatness : ℝ
  voicedSegmentLengths : List ℝ
  pauseLengths : List ℝ
  burstLengths : List ℝ
  repetitionRate : ℝ
  nasalEnergyRatio : ℝ
  lowMidHarmonics : ℝ
  duration : ℝ
  sampleRate : ℝ

/-- Modelled from the spec (section 3): the `Alert` record of
`audioAnalysis.ts` (not under `src/`).  The open-ended `type` union is
modelled by `String`; `confidence` is only stored and compared, hence `ℚ`. -/
structure Alert where
  type : String
  severity : Severity
  confidence : ℚ
  message : String
  description : String
  recommendation : String

/-- Modelled from the spec (section 3): the `DetectionResult` record of
`audioAnalysis.ts` (not under `src/`).  The timestamp is milliseconds since
the epoch. -/
structure DetectionResult where
  timestamp : ℤ
  features : AudioFeatures
  alerts : List Alert
  riskLevel : RiskLevel

/-- The `medicalAttention` union of `CryDiagnosis` in `cryDetection.ts`. -/
inductive MedicalAttention where
  | none
  | monitor
  | consult
  | urgent
  | emergency
deriving DecidableEq, Repr

/-- The `CryDiagnosis` record of `cryDetection.ts`. -/
structure CryDiagnosis where
  primary : String
  description : String
  recommendations : List String
  medicalAttention : MedicalAttention
  confidence : ℚ
  tags : List String
deriving DecidableEq, Repr

/-- The `CryInstance` record of `cryDetection.ts`.  `timestamp` is
milliseconds since the epoch; the optional base64 `audioData` and MIME
`audioType` mirror the source's optional fields. -/
structure CryInstance where
  id : String
  timestamp : ℤ
  duration : ℚ
  features : AudioFeatures
  alerts : List Alert
  diagnosis : CryDiagnosis
  riskLevel : RiskLevel
  confidence : ℚ
  audioData : Option String
  audioType : Option String

/-- Rendering of a `Severity` back to its source string literal (the source
stores `primaryAlert.severity`, a string, directly into `tags`). -/
def Severity.toStr : Severity → String
  | .low => "low"
  | .medium => "medium"
  | .high => "high"
  | .critical => "critical"

/-- Source `CryDiagnosisEngine.generateDiagnosis` (`cryDetection.ts` lines 237-289),
translated clause by clause: empty alert list yields the fixed "Normal Cry"
diagnosis; otherwise the first critical alert, else the first high alert,
else `alerts[0]` becomes the primary alert. -/
def generateDiagnosis (result : DetectionResult) : CryDiagnosis :=
  let alerts := result.alerts
  if alerts.length = 0 then
    { primary := "Normal Cry"
      description := "Cry patterns appear within normal ranges."
      recommendations := ["Continue regular monitoring", "Maintain feeding and sleep schedules"]
      medicalAttention := MedicalAttention.none
      confidence := 0.8
      tags := ["normal", "healthy"] }
  else
    let criticalAlerts := alerts.filter (fun a => a.severity == Severity.critical)
    let highAlerts := alerts.filter (fun a => a.severity == Severity.high)
    match criticalAlerts with
    | primaryAlert :: _ =>
      { primary := primaryAlert.message
        description := primaryAlert.description
        recommendations := [primaryAlert.recommendation, "Seek immediate medical evaluation"]
        medicalAttention := MedicalAttention.emergency
        confidence := primaryAlert.confidence
        tags := ["critical", primaryAlert.type, "urgent"] }
    | [] =>
      match highAlerts with
      | primaryAlert :: _ =>
        { primary := primaryAlert.message
          description := primaryAlert.description
          recommendations := [primaryAlert.recommendation, "Consider consulting pediatrician"]
          medicalAttention := MedicalAttention.consult
          confidence := primaryAlert.confidence
          tags := ["high-priority", primaryAlert.type] }
      | [] =>
        match alerts with
        | primaryAlert :: _ =>
          { primary := primaryAlert.message
            description := primaryAlert.description
            recommendations := [primaryAlert.recommendation, "Monitor for patterns"]
            medicalAttention := MedicalAttention.monitor
            confidence := primaryAlert.confidence
            tags := [primaryAlert.severity.toStr, primaryAlert.type] }
        | [] =>
          -- dead code: the source guards this region with `alerts.length === 0`
          { primary := "Normal Cry"
            description := "Cry patterns appear within normal ranges."
            recommendations := ["Continue regular monitoring", "Maintain feeding and sleep schedules"]
            medicalAttention := MedicalAttention.none
            confidence := 0.8
            tags := ["normal", "healthy"] }

/-- JavaScript `Array.prototype.slice(-n)`: the suffix of the most recent
`n` elements (the whole list when it is shorter than `n`). -/
def jsSliceLast (n : ℕ) (l : List α) : List α :=
  l.drop (l.length - n)

/-- The spread `{...cry, audioData: undefined, audioType: undefined}` inside
`CryStorage.saveCry`. -/
def stripAudio (cry : CryInstance) : CryInstance :=
  { cry with audioData := none, audioType := none }

/-- Source `CryStorage.saveCry` (`cryDetection.ts` lines 296-307) as a function on
the parsed log state: push the audio-stripped instance, keep only the last
1000 entries.  Serialization of the resulting list back into `localStorage`
is modelled as identity on the log structure (the timestamp encoding is
treated separately, in the `JsValue` development below). -/
def saveCry (log : List CryInstance) (cry : CryInstance) : List CryInstance :=
  jsSliceLast 1000 (log ++ [{ cry with audioData := none, audioType := none }])

/-- The value stored under an audio key by `CryStorage.saveCryWithAudio`:
base64 payload, MIME type and byte size. -/
structure AudioRecord where
  data : String
  type : String
  size : ℕ
deriving DecidableEq, Repr

/-- The `localStorage` state visible to `CryStorage`: the parsed cry log and
the per-id audio slots (association list keyed by storage key). -/
structure StoreState where
  log : List CryInstance
  audioSlots : List (String × AudioRecord)

/-- The `CryStorage.AUDIO_STORAGE_KEY` prefix constant. -/
def audioKeyOf (id : String) : String := "dababy_audio_" ++ id

/-- Source `CryStorage.saveCryWithAudio` (`cryDetection.ts` lines 309-329): the
metadata append (`saveCry`) runs first; the `FileReader` base64 conversion is
modelled by taking the base64 payload as an argument; the
`localStorage.setItem` of the audio record may throw (storage quota), which
the source catches and turns into a `console.warn` — the success of that
`setItem` is supplied as `setItemOk`, and the returned `Bool` records whether
the warning was emitted. -/
def saveCryWithAudio (st : StoreState) (cry : CryInstance)
    (base64Audio blobType : String) (blobSize : ℕ) (setItemOk : Bool) :
    StoreState × Bool :=
  let st1 : StoreState := { st with log := saveCry st.log cry }
  if setItemOk then
    ({ st1 with
        audioSlots := (audioKeyOf cry.id, ⟨base64Audio, blobType, blobSize⟩) :: st1.audioSlots },
      false)
  else
    (st1, true)

/-- Source `CryStorage.getAllCries` on the parsed state (parse modelled as identity
on the log; the source's parse-failure fallback to `[]` is not exercised by
any claim). -/
def getAllCries (st : StoreState) : List CryInstance := st.log

/-- Rewriting `jsSliceLast` through `reverse`/`take`: the last `n` elements are the
reversal of the first `n` elements of the reversal. -/
theorem jsSliceLast_eq_reverse_take (n : ℕ) (l : List α) :
    jsSliceLast n l = (l.reverse.take n).reverse := by
  rw [jsSliceLast, List.reverse_take, List.reverse_reverse, List.length_reverse]

/-- A list already within the cap is untouched by `jsSliceLast`. -/
theorem jsSliceLast_of_le {n : ℕ} {l : List α} (h : l.length ≤ n) :
    jsSliceLast n l = l := by
  rw [jsSliceLast, Nat.sub_eq_zero_of_le h, List.drop_zero]

/-- The cap holds after `jsSliceLast`. -/
theorem length_jsSliceLast_le (n : ℕ) (l : List α) :
    (jsSliceLast n l).length ≤ n := by
  rw [jsSliceLast, List.length_drop]
  omega

/-- Re-capping an already capped prefix before appending is the same as
capping once at the end. -/
theorem jsSliceLast_append_jsSliceLast (n : ℕ) (xs ys : List α) :
    jsSliceLast n (jsSliceLast n xs ++ ys) = jsSliceLast n (xs ++ ys) := by
  rw [jsSliceLast_eq_reverse_take, jsSliceLast_eq_reverse_take,
    jsSliceLast_eq_reverse_take, List.reverse_append, List.reverse_reverse,
    List.reverse_append]
  congr 1
  rw [List.take_append_eq_append_take, List.take_append_eq_append_take,
    List.take_take]
  rw [inf_of_le_left (Nat.sub_le _ _)]

/-- The capped append keeps the new element in final position. -/
theorem jsSliceLast_concat (l : List α) (y : α) :
    jsSliceLast 1000 (l ++ [y]) = (l.reverse.take 999).reverse ++ [y] := by
  rw [jsSliceLast_eq_reverse_take, List.reverse_append]
  simp [List.take_succ_cons]

theorem saveCry_def (log : List CryInstance) (cry : CryInstance) :
    saveCry log cry = jsSliceLast 1000 (log ++ [stripAudio cry]) := rfl

theorem stripAudio_mem_saveCry (log : List CryInstance) (cry : CryInstance) :
    stripAudio cry ∈ saveCry log cry := by
  rw [saveCry_def, jsSliceLast_concat]
  exact List.mem_append_right _ (List.mem_singleton.mpr rfl)

/-- Folding `saveCry` over a batch from a state within the cap equals one
append of all stripped instances followed by a single cap. -/
theorem saveCry_foldl (cs : List CryInstance) :
    ∀ log : List CryInstance, log.length ≤ 1000 →
      cs.foldl saveCry log = jsSliceLast 1000 (log ++ cs.map stripAudio) := by
  induction cs with
  | nil => intro log h; simpa using (jsSliceLast_of_le h).symm
  | cons c cs ih =>
    intro log h
    rw [List.foldl_cons, ih (saveCry log c) (length_jsSliceLast_le 1000 _),
      saveCry_def, jsSliceLast_append_jsSliceLast, List.map_cons]
    congr 1
    simp

/-- Claim C4: `CryStorage.saveCry` appends the (audio-stripped) instance at
the end of the persisted log, keeps insertion order with the newest entry
last, caps the log at the most recent 1000 entries with the oldest evicted
first, and appending 1001 instances to an empty store leaves exactly the
most recent 1000. -/
theorem claim_C4 :
    (∀ (log : List CryInstance) (cry : CryInstance),
      saveCry log cry = jsSliceLast 1000 (log ++ [stripAudio cry])) ∧
    (∀ (log : List CryInstance) (cry : CryInstance), log.length < 1000 →
      saveCry log cry = log ++ [stripAudio cry]) ∧
    (∀ (log : List CryInstance) (cry : CryInstance),
      (saveCry log cry).length ≤ 1000) ∧
    (∀ cs : List CryInstance, cs.length = 1001 →
      cs.foldl saveCry [] = (cs.map stripAudio).drop 1) := by
  refine ⟨fun log cry => rfl, fun log cry h => ?_, fun log cry => ?_, fun cs h => ?_⟩
  · rw [saveCry_def]
    exact jsSliceLast_of_le (by simp; omega)
  · exact length_jsSliceLast_le 1000 _
  · have h2 : (cs.map stripAudio).length - 1000 = 1 := by
      rw [List.length_map, h]
    rw [saveCry_foldl cs [] (by simp), List.nil_append, jsSliceLast, h2]

/-- Claim C9: every instance persisted by `saveCry` is written with
`audioData` and `audioType` cleared, even when the caller supplied inline
audio: the entry actually appended is the stripped copy, and a log whose
entries all lack inline audio keeps that property across `saveCry`. -/
theorem claim_C9 :
    (∀ cry : CryInstance,
      (stripAudio cry).audioData = none ∧ (stripAudio cry).audioType = none) ∧
    (∀ (log : List CryInstance) (cry : CryInstance),
      (saveCry log cry).getLast? = some (stripAudio cry)) ∧
    (∀ (log : List CryInstance) (cry : CryInstance),
      (∀ x ∈ log, x.audioData = none ∧ x.audioType = none) →
      ∀ x ∈ saveCry log cry, x.audioData = none ∧ x.audioType = none) := by
  refine ⟨fun cry => ⟨rfl, rfl⟩, fun log cry => ?_, fun log cry h x hx => ?_⟩
  · rw [saveCry_def, jsSliceLast_concat]
    exact List.getLast?_concat _
  · rw [saveCry_def, jsSliceLast] at hx
    rcases List.mem_append.mp (List.drop_subset _ _ hx) with hmem | hmem
    · exact h x hmem
    · rw [List.mem_singleton.mp hmem]
      exact ⟨rfl, rfl⟩

/-- Claim C6: `saveCryWithAudio` performs the metadata append first; when
persisting the audio record fails the failure is caught, surfaced as a
warning, and the metadata write is not rolled back, so the stripped instance
remains retrievable from `getAllCries`. -/
theorem claim_C6 (st : StoreState) (cry : CryInstance)
    (base64Audio blobType : String) (blobSize : ℕ) (setItemOk : Bool) :
    (saveCryWithAudio st cry base64Audio blobType blobSize setItemOk).1.log
        = saveCry st.log cry ∧
    (setItemOk = false →
      (saveCryWithAudio st cry base64Audio blobType blobSize setItemOk).1.audioSlots
          = st.audioSlots ∧
      (saveCryWithAudio st cry base64Audio blobType blobSize setItemOk).2 = true) ∧
    stripAudio cry
      ∈ getAllCries (saveCryWithAudio st cry base64Audio blobType blobSize setItemOk).1 := by
  refine ⟨?_, ?_, ?_⟩
  · cases setItemOk <;> simp [saveCryWithAudio]
  · intro h
    subst h
    simp [saveCryWithAudio]
  · have hmem := stripAudio_mem_saveCry st.log cry
    cases setItemOk <;> simpa [saveCryWithAudio, getAllCries] using hmem

/-- When no critical and no high alert is present, every alert is medium or
low, so the medium-or-low band is the whole list. -/
theorem filter_medLow_eq_self (alerts : List Alert)
    (hc : alerts.filter (fun a => a.severity == Severity.critical) = [])
    (hh : alerts.filter (fun a => a.severity == Severity.high) = []) :
    alerts.filter
      (fun a => a.severity == Severity.medium || a.severity == Severity.low) = alerts := by
  rw [List.filter_eq_self]
  intro a ha
  have hc' := List.filter_eq_nil_iff.mp hc a ha
  have hh' := List.filter_eq_nil_iff.mp hh a ha
  cases hsev : a.severity <;> simp_all

/-- Claim C3: `generateDiagnosis` maps an empty alert list to the fixed
"Normal Cry" diagnosis (attention `none`, confidence 0.8, tags
normal/healthy); otherwise the primary alert is the first alert, in original
list order, of the highest severity band present under the priority
critical, then high, then medium-or-low, with `medicalAttention`
emergency/consult/monitor respectively, confidence copied from the primary
alert, and recommendations the primary alert's recommendation followed by
the band boilerplate. -/
theorem claim_C3 (r : DetectionResult) :
    (r.alerts = [] →
      (generateDiagnosis r).primary = "Normal Cry" ∧
      (generateDiagnosis r).medicalAttention = MedicalAttention.none ∧
      (generateDiagnosis r).confidence = 0.8 ∧
      (generateDiagnosis r).tags = ["normal", "healthy"]) ∧
    (∀ a rest, r.alerts.filter (fun x => x.severity == Severity.critical) = a :: rest →
      (generateDiagnosis r).primary = a.message ∧
      (generateDiagnosis r).medicalAttention = MedicalAttention.emergency ∧
      (generateDiagnosis r).confidence = a.confidence ∧
      (generateDiagnosis r).recommendations
          = [a.recommendation, "Seek immediate medical evaluation"]) ∧
    (r.alerts.filter (fun x => x.severity == Severity.critical) = [] →
      ∀ a rest, r.alerts.filter (fun x => x.severity == Severity.high) = a :: rest →
      (generateDiagnosis r).primary = a.message ∧
      (generateDiagnosis r).medicalAttention = MedicalAttention.consult ∧
      (generateDiagnosis r).confidence = a.confidence ∧
      (generateDiagnosis r).recommendations
          = [a.recommendation, "Consider consulting pediatrician"]) ∧
    (r.alerts.filter (fun x => x.severity == Severity.critical) = [] →
      r.alerts.filter (fun x => x.severity == Severity.high) = [] →
      ∀ a rest,
        r.alerts.filter
          (fun x => x.severity == Severity.medium || x.severity == Severity.low)
            = a :: rest →
      (generateDiagnosis r).primary = a.message ∧
      (generateDiagnosis r).medicalAttention = MedicalAttention.monitor ∧
      (generateDiagnosis r).confidence = a.confidence ∧
      (generateDiagnosis r).recommendations = [a.recommendation, "Monitor for patterns"]) := by
  refine ⟨fun h => ?_, fun a rest hf => ?_, fun hc a rest hf => ?_, fun hc hh a rest hf => ?_⟩
  · simp [generateDiagnosis, h]
  · have hne : r.alerts ≠ [] := by
      intro h0
      rw [h0] at hf
      simp at hf
    have hlen : ¬ r.alerts.length = 0 := by simpa [List.length_eq_zero] using hne
    simp [generateDiagnosis, if_neg hlen, hf]
  · have hne : r.alerts ≠ [] := by
      intro h0
      rw [h0] at hf
      simp at hf
    have hlen : ¬ r.alerts.length = 0 := by simpa [List.length_eq_zero] using hne
    simp [generateDiagnosis, if_neg hlen, hc, hf]
  · have halerts : r.alerts = a :: rest := by
      rw [← filter_medLow_eq_self r.alerts hc hh, hf]
    have hlen : ¬ r.alerts.length = 0 := by simp [halerts]
    rw [halerts] at hc hh
    simp [generateDiagnosis, if_neg hlen, halerts, hc, hh]

/-- An all-zero `AudioFeatures` record, used to build concrete witness
inputs. -/
def zeroFeatures : AudioFeatures :=
  ⟨[], 0, 0, 0, 0, 0, some 0, 0, 0, [], [], [], 0, 0, 0, 0, 0⟩

/-- A concrete medium-severity alert. -/
def alertMed : Alert :=
  ⟨"grunting", Severity.medium, 0.5, "Grunting detected", "dm", "Watch breathing"⟩

/-- A concrete high-severity alert. -/
def alertHigh : Alert :=
  ⟨"hoarseness", Severity.high, 0.7, "Hoarse cry", "dh", "Check for strain"⟩

/-- A concrete critical-severity alert. -/
def alertCrit : Alert :=
  ⟨"serious_illness", Severity.critical, 0.9, "Serious illness pattern", "dc", "Call a doctor"⟩

/-- A detection result with no alerts. -/
def resEmpty : DetectionResult := ⟨0, zeroFeatures, [], RiskLevel.low⟩

/-- A detection result whose critical alert is listed after a high alert. -/
def resCrit : DetectionResult := ⟨0, zeroFeatures, [alertHigh, alertCrit], RiskLevel.critical⟩

/-- A detection result with a medium and a high alert. -/
def resHigh : DetectionResult := ⟨0, zeroFeatures, [alertMed, alertHigh], RiskLevel.high⟩

/-- A detection result with a single medium alert. -/
def resMed : DetectionResult := ⟨0, zeroFeatures, [alertMed], RiskLevel.medium⟩

/-- Witness for claim C3, instantiating every band of the theorem on
concrete detection results. -/
theorem claim_C3_witness :
    (generateDiagnosis resEmpty).primary = "Normal Cry" ∧
    (generateDiagnosis resEmpty).medicalAttention = MedicalAttention.none ∧
    (generateDiagnosis resEmpty).confidence = 0.8 ∧
    (generateDiagnosis resEmpty).tags = ["normal", "healthy"] ∧
    (generateDiagnosis resCrit).primary = alertCrit.message ∧
    (generateDiagnosis resCrit).medicalAttention = MedicalAttention.emergency ∧
    (generateDiagnosis resHigh).medicalAttention = MedicalAttention.consult ∧
    (generateDiagnosis resMed).medicalAttention = MedicalAttention.monitor ∧
    (generateDiagnosis resMed).confidence = alertMed.confidence := by
  obtain ⟨h1, h2, h3, h4⟩ := (claim_C3 resEmpty).1 rfl
  obtain ⟨c1, c2, c3, c4⟩ := (claim_C3 resCrit).2.1 alertCrit [] rfl
  obtain ⟨g1, g2, g3, g4⟩ := (claim_C3 resHigh).2.2.1 rfl alertHigh [] rfl
  obtain ⟨m1, m2, m3, m4⟩ := (claim_C3 resMed).2.2.2 rfl rfl alertMed [] rfl
  exact ⟨h1, h2, h3, h4, c1, c2, g2, m2, m3⟩

/-- A concrete `CryInstance` carrying inline audio data, used by the storage
witnesses. -/
def inst0 : CryInstance :=
  { id := "cry-0", timestamp := 1700000000000, duration := 2,
    features := zeroFeatures, alerts := [], diagnosis := generateDiagnosis resEmpty,
    riskLevel := RiskLevel.low, confidence := 0.8,
    audioData := some "QUJD", audioType := some "audio/webm" }

/-- Witness for claim C4 on a concrete instance and a concrete batch of 1001
appends. -/
theorem claim_C4_witness :
    saveCry [] inst0 = [stripAudio inst0] ∧
    (List.replicate 1001 inst0).foldl saveCry []
      = ((List.replicate 1001 inst0).map stripAudio).drop 1 :=
  ⟨claim_C4.2.1 [] inst0 (by simp), claim_C4.2.2.2 _ (by simp)⟩

/-- Witness for claim C9: the concrete instance with inline audio is
persisted stripped. -/
theorem claim_C9_witness :
    (stripAudio inst0).audioData = none ∧
    (stripAudio inst0).audioType = none ∧
    (saveCry [] inst0).getLast? = some (stripAudio inst0) :=
  ⟨(claim_C9.1 inst0).1,
    (claim_C9.2.2 [] inst0 (by simp) (stripAudio inst0)
      (stripAudio_mem_saveCry [] inst0)).2,
    claim_C9.2.1 [] inst0⟩

/-- Witness for claim C6: a concrete `saveCryWithAudio` whose audio
persistence fails still commits the metadata. -/
theorem claim_C6_witness :
    (saveCryWithAudio ⟨[], []⟩ inst0 "QUJD" "audio/webm" 3 false).1.log
        = saveCry [] inst0 ∧
    (saveCryWithAudio ⟨[], []⟩ inst0 "QUJD" "audio/webm" 3 false).1.audioSlots = [] ∧
    (saveCryWithAudio ⟨[], []⟩ inst0 "QUJD" "audio/webm" 3 false).2 = true ∧
    stripAudio inst0
      ∈ getAllCries (saveCryWithAudio ⟨[], []⟩ inst0 "QUJD" "audio/webm" 3 false).1 := by
  obtain ⟨h1, h2, h3⟩ := claim_C6 ⟨[], []⟩ inst0 "QUJD" "audio/webm" 3 false
  obtain ⟨h2a, h2b⟩ := h2 rfl
  exact ⟨h1, h2a, h2b, h3⟩

/-- The universe of JavaScript values that can reach `JSON.stringify` /
`JSON.parse` in `CryStorage`: JSON scalars, arrays, objects, plus `Date`
objects (identified by their millisecond timestamp). -/
inductive JsValue where
  | vnull
  | vbool (b : Bool)
  | vnum (q : ℚ)
  | vstr (s : String)
  | vdate (ms : ℤ)
  | varr (elems : List JsValue)
  | vobj (fields : List (String × JsValue))

/-- The character for a single decimal digit. -/
def digitChar (d : ℕ) : Char := Char.ofNat (48 + d)

/-- Inverse of `digitChar` on decimal digits. -/
def digitVal (c : Char) : ℕ := c.toNat - 48

theorem digitVal_digitChar {d : ℕ} (h : d < 10) : digitVal (digitChar d) = d := by
  interval_cases d <;> rfl

/-- Little-endian decimal digit characters of a natural number. -/
def natChars (n : ℕ) : List Char := (Nat.digits 10 n).map digitChar

/-- Read back a digit-character list produced by `natChars`. -/
def charsNat (cs : List Char) : ℕ := Nat.ofDigits 10 (cs.map digitVal)

theorem charsNat_natChars (n : ℕ) : charsNat (natChars n) = n := by
  rw [charsNat, natChars, List.map_map]
  have h : ∀ d ∈ Nat.digits 10 n, (digitVal ∘ digitChar) d = d := fun d hd =>
    digitVal_digitChar (Nat.digits_lt_base (by norm_num) hd)
  rw [List.map_congr_left h, List.map_id']
  exact Nat.ofDigits_digits 10 n

/-- Modelled from the spec (sections 4.4 and 6): `Date.prototype.toISOString`
of the JS runtime, abstracted as an injective encoding of the millisecond
timestamp into a string (sign, little-endian decimal digits, terminator);
what the development relies on is exactly what the spec requires of the ISO
encoding, namely that it round-trips with millisecond precision. -/
def isoOfMs (ms : ℤ) : String :=
  String.mk ((if ms < 0 then '-' else '+') :: (natChars ms.natAbs ++ ['Z']))

/-- Modelled from the spec (sections 4.4 and 6): `new Date(isoString)` of
the JS runtime, the parsing inverse of `isoOfMs`. -/
def parseIsoMs (s : String) : ℤ :=
  match s.data with
  | c :: rest =>
    if c = '-' then -(charsNat rest.dropLast : ℤ) else (charsNat rest.dropLast : ℤ)
  | [] => 0

theorem parseIsoMs_isoOfMs (ms : ℤ) : parseIsoMs (isoOfMs ms) = ms := by
  by_cases hms : ms < 0
  · simp [parseIsoMs, isoOfMs, if_pos hms, List.dropLast_concat, charsNat_natChars,
      Int.ofNat_natAbs_of_nonpos (le_of_lt hms)]
  · simp [parseIsoMs, isoOfMs, if_neg hms, List.dropLast_concat, charsNat_natChars,
      Int.natAbs_of_nonneg (le_of_not_lt hms)]

/-- Modelled from the ECMAScript runtime: `Date.prototype.toJSON`, which
`JSON.stringify` invokes on every `Date` value before handing the value to
the replacer (ECMA-262, SerializeJSONProperty: the `toJSON` call in step 2
precedes the `ReplacerFunction` call in step 3). -/
def dateToJSON : JsValue → JsValue
  | .vdate ms => .vstr (isoOfMs ms)
  | v => v

/-- Source `CryStorage.dateReplacer` (`cryDetection.ts` lines 386-391): wrap a
`Date` value in the `{__type: 'Date', value: isoString}` envelope, pass
everything else through. -/
def dateReplacer (v : JsValue) : JsValue :=
  match v with
  | .vdate ms => .vobj [("__type", .vstr "Date"), ("value", .vstr (isoOfMs ms))]
  | _ => v

/-- JavaScript property lookup on an object's field list. -/
def lookupField (fields : List (String × JsValue)) (k : String) : Option JsValue :=
  match fields with
  | [] => none
  | (k2, v) :: rest => if k2 = k then some v else lookupField rest k

/-- Source `CryStorage.dateReviver` (`cryDetection.ts` lines 393-398): an object
with a `value` property and `__type === 'Date'` becomes
`new Date(value.value)`; everything else passes through.  (The source would
also coerce a non-string `value` property through the `Date` constructor;
that path is never produced by this serializer and is modelled as a
pass-through.) -/
def dateReviver (v : JsValue) : JsValue :=
  match v with
  | .vobj fields =>
    match lookupField fields "value", lookupField fields "__type" with
    | some inner, some (.vstr t) =>
      if t = "Date" then
        match inner with
        | .vstr s => .vdate (parseIsoMs s)
        | _ => .vobj fields
      else .vobj fields
    | _, _ => .vobj fields
  | _ => v

/-- Modelled from the ECMAScript runtime: the value transformation performed
by `JSON.stringify(x, replacer)` (ECMA-262 SerializeJSONProperty), with
`CryStorage.dateReplacer` as the replacer.  For each visited value, `toJSON`
fires first (turning every `Date` into its ISO string), then the replacer is
applied, then serialization recurses into the members of the result.  The
fuel argument bounds the recursion depth (the runtime throws on cyclic
values; any fuel at least the value's depth is enough). -/
def serializeJSONProperty : ℕ → JsValue → JsValue
  | 0, v => v
  | fuel + 1, v =>
    match dateReplacer (dateToJSON v) with
    | .vobj fields => .vobj (fields.map (fun kv => (kv.1, serializeJSONProperty fuel kv.2)))
    | .varr elems => .varr (elems.map (serializeJSONProperty fuel))
    | v2 => v2

/-- Modelled from the ECMAScript runtime: the value transformation performed
by `JSON.parse(text, reviver)` (ECMA-262 InternalizeJSONProperty), with
`CryStorage.dateReviver` as the reviver: recurse into members first, then
apply the reviver to the rebuilt value. -/
def internalizeJSONProperty : ℕ → JsValue → JsValue
  | 0, v => dateReviver v
  | fuel + 1, v =>
    match v with
    | .vobj fields =>
      dateReviver (.vobj (fields.map (fun kv => (kv.1, internalizeJSONProperty fuel kv.2))))
    | .varr elems => dateReviver (.varr (elems.map (internalizeJSONProperty fuel)))
    | v2 => dateReviver v2

/-- The two halves of the source were written as inverses: applying
`dateReviver` directly to a `dateReplacer` envelope does recover the `Date`
with millisecond precision.  The defect established for claim C5 is that
`JSON.stringify` never lets `dateReplacer` see a `Date` in the first
place. -/
theorem dateReviver_dateReplacer (ms : ℤ) :
    dateReviver (dateReplacer (JsValue.vdate ms)) = JsValue.vdate ms := by
  simp [dateReviver, dateReplacer, lookupField, parseIsoMs_isoOfMs]

/-- The JSON-level image of a `CryInstance` whose `timestamp` field holds a
`Date`, as handed to `JSON.stringify` by `CryStorage.saveCry`. -/
def cryInstanceJson : JsValue :=
  JsValue.vobj [("id", JsValue.vstr "cry-0"),
    ("timestamp", JsValue.vdate 1700000000000),
    ("duration", JsValue.vnum 2),
    ("tags", JsValue.varr [JsValue.vstr "normal"])]

/-- Claim C5 (evaluation at the failing input): because `JSON.stringify`
applies `Date.prototype.toJSON` before the replacer, `dateReplacer` receives
an ISO string instead of a `Date` and never emits the
`{__type: 'Date', value: isoString}` envelope; the serialized timestamp is a
plain string, `dateReviver` finds no envelope to undo, and the round-tripped
instance carries a string timestamp rather than a `Date` equal to the
original. -/
theorem claim_C5 :
    serializeJSONProperty 4 (JsValue.vdate 1700000000000)
        = JsValue.vstr (isoOfMs 1700000000000) ∧
    internalizeJSONProperty 4 (serializeJSONProperty 4 cryInstanceJson)
        = JsValue.vobj [("id", JsValue.vstr "cry-0"),
            ("timestamp", JsValue.vstr (isoOfMs 1700000000000)),
            ("duration", JsValue.vnum 2),
            ("tags", JsValue.varr [JsValue.vstr "normal"])] ∧
    JsValue.vstr (isoOfMs 1700000000000) ≠ JsValue.vdate 1700000000000 :=
  ⟨rfl, rfl, fun h => JsValue.noConfusion h⟩

noncomputable section

open scoped Classical

/-- Source `CryDetectionEngine.cryThreshold`, the fixed default 0.1. -/
def cryThreshold : ℝ := 0.1

/-- Source `CryDetectionEngine.calculateRMS` (`cryDetection.ts` lines 167-173):
the square root of the mean square.  On a zero-length block the source
computes `0 / 0`, which is NaN in JavaScript (modelled `none`); every other
block yields a real value. -/
def calculateRMS (signal : List ℝ) : Option ℝ :=
  if signal.length = 0 then none
  else
    some (Real.sqrt
      ((∑ i ∈ Finset.range signal.length, signal.getD i 0 * signal.getD i 0) /
        signal.length))

/-- The comparison `rms > this.cryThreshold` of `processSample`: a NaN RMS
compares false against every threshold, as in JavaScript. -/
def rmsExceeds (rms : Option ℝ) (threshold : ℝ) : Prop :=
  ∃ x, rms = some x ∧ threshold < x

/-- The inner loop of `estimateF0`: the (unnormalized) autocorrelation
`Σ_{i < length - p} s[i]·s[i+p]` at lag `p`. -/
def autocorr (signal : List ℝ) (p : ℕ) : ℝ :=
  ∑ i ∈ Finset.range (signal.length - p), signal.getD i 0 * signal.getD (i + p) 0

/-- The ascending list of lags scanned by `estimateF0`'s
`for (period = minPeriod; period <= maxPeriod && period < length / 2; ...)`
loop.  Both loop-guard conditions are antitone along the ascending scan, so
stopping at the first violation visits exactly the filtered range. -/
def scannedPeriods (minPeriod maxPeriod len : ℕ) : List ℕ :=
  (List.range (maxPeriod + 1)).filter (fun p => decide (minPeriod ≤ p ∧ 2 * p < len))

/-- One iteration of `estimateF0`'s running maximum: update best period and
best correlation only on strictly greater correlation. -/
def f0Step (signal : List ℝ) (acc : ℝ × ℕ) (p : ℕ) : ℝ × ℕ :=
  if autocorr signal p > acc.1 then (autocorr signal p, p) else acc

/-- Source `CryDetectionEngine.estimateF0` (`cryDetection.ts` lines 175-196): scan
every lag from `Math.floor(sampleRate/1200)` to `Math.floor(sampleRate/300)`
that is below half the signal length, starting from correlation 0 and best
period 0; return `sampleRate / bestPeriod`, or 0 if no lag achieved
positive correlation.  `Math.floor` produces these natural-number bounds for
every non-negative sample rate (the only ones that reach the engine). -/
def estimateF0 (signal : List ℝ) (sampleRate : ℝ) : ℝ :=
  let minPeriod := (⌊sampleRate / 1200⌋).toNat
  let maxPeriod := (⌊sampleRate / 300⌋).toNat
  let best := (scannedPeriods minPeriod maxPeriod signal.length).foldl (f0Step signal) (0, 0)
  if best.2 > 0 then sampleRate / best.2 else 0

/-- Source `CryDetectionEngine.simpleFFT` (`cryDetection.ts` lines 216-233), bin
`k` of the direct DFT with angle `-2πkn/N`: the source stores
`result[2k] = Σ_n s[n]·cos(angle)` and `result[2k+1] = Σ_n s[n]·sin(angle)`;
the model returns the (real, imaginary) pair of bin `k`. -/
def simpleFFT (signal : List ℝ) (k : ℕ) : ℝ × ℝ :=
  (∑ n ∈ Finset.range signal.length,
      signal.getD n 0 * Real.cos (-2 * Real.pi * k * n / signal.length),
   ∑ n ∈ Finset.range signal.length,
      signal.getD n 0 * Real.sin (-2 * Real.pi * k * n / signal.length))

/-- Source `CryDetectionEngine.calculateSpectralCentroid` (`cryDetection.ts` lines
198-214): direct DFT of the first `min 2048 length` samples; the loop bound
`i < spectrum.length / 2` equals `fftSize` (the spectrum array interleaves
real and imaginary parts), so every DFT bin — not only the first half —
contributes frequency `i·sampleRate/fftSize` weighted by magnitude
`√(re² + im²)`; the centroid is the weighted mean, or 0 when the total
magnitude is 0. -/
def calculateSpectralCentroid (signal : List ℝ) (sampleRate : ℝ) : ℝ :=
  let fftSize := min 2048 signal.length
  let sliced := signal.take fftSize
  let weightedSum := ∑ i ∈ Finset.range fftSize,
    (i * sampleRate / fftSize) *
      Real.sqrt ((simpleFFT sliced i).1 ^ 2 + (simpleFFT sliced i).2 ^ 2)
  let magnitudeSum := ∑ i ∈ Finset.range fftSize,
    Real.sqrt ((simpleFFT sliced i).1 ^ 2 + (simpleFFT sliced i).2 ^ 2)
  if magnitudeSum > 0 then weightedSum / magnitudeSum else 0

/-- Source `CryDetectionEngine.validateCryPattern` (`cryDetection.ts` lines
99-123): concatenate the buffered blocks; accept iff the F0 estimate of the
concatenation is within [300, 1200], its spectral centroid exceeds 500, and
the buffered sample count spans at least 0.3 s at the given rate. -/
def validateCryPattern (buffer : List (List ℝ)) (sampleRate : ℝ) : Prop :=
  let combinedAudio := buffer.flatten
  estimateF0 combinedAudio sampleRate ≥ 300 ∧
  estimateF0 combinedAudio sampleRate ≤ 1200 ∧
  calculateSpectralCentroid combinedAudio sampleRate > 500 ∧
  (combinedAudio.length : ℝ) / sampleRate ≥ 0.3

/-- The mutable state of `CryDetectionEngine`: `isDetectingCry`,
`detectionStartTime` (milliseconds, `null` while idle) and the block
buffer. -/
structure CryEngineState where
  isDetectingCry : Bool
  detectionStartTime : Option ℝ
  analysisBuffer : List (List ℝ)

/-- The constructor state of `CryDetectionEngine`: idle, no start time,
empty buffer (also the result of `resetDetection`). -/
def initEngineState : CryEngineState := ⟨false, none, []⟩

/-- Outcome of one `processSample` call: the JS return value or the
exception propagated out of the callback, the object state after the call,
and the features passed to the confirmation callback when it was invoked. -/
structure StepResult (ε : Type) where
  ret : Except ε Bool
  state : CryEngineState
  emitted : Option AudioFeatures

/-- Source `CryDetectionEngine.processCryDetection` (`cryDetection.ts` lines
125-159): build the minimal `AudioFeatures` of the concatenated buffer,
invoke the confirmation callback, then `resetDetection`.  The source wraps
no handler around the callback: when it throws, `resetDetection` is never
reached and the exception leaves `processSample` with the state intact.  The features
record built over the concatenated buffer is named `detectionFeatures`. -/
def detectionFeatures (combinedAudio : List ℝ) (sampleRate : ℝ) : AudioFeatures :=
  { f0 := [], f0Mean := estimateF0 combinedAudio sampleRate, f0Std := 0, hnr := 0,
    jitter := 0, shimmer := 0, rms := calculateRMS combinedAudio,
    spectralCentroid := calculateSpectralCentroid combinedAudio sampleRate,
    spectralFlatness := 0, voicedSegmentLengths := [], pauseLengths := [],
    burstLengths := [], repetitionRate := 0, nasalEnergyRatio := 0,
    lowMidHarmonics := 0, duration := (combinedAudio.length : ℝ) / sampleRate,
    sampleRate := sampleRate }

def processCryDetection {ε : Type} (cb : AudioFeatures → Except ε Unit)
    (sampleRate : ℝ) (st : CryEngineState) : StepResult ε :=
  let features := detectionFeatures st.analysisBuffer.flatten sampleRate
  match cb features with
  | .ok _ => { ret := .ok true, state := initEngineState, emitted := some features }
  | .error e => { ret := .error e, state := st, emitted := some features }

/-- Source `CryDetectionEngine.processSample` (`cryDetection.ts` lines 61-97), one
synchronous step; `now` is what `Date.now()` returns during the call.  The
branches mirror the source: start of a potential cry; continued
accumulation with the 0.5 s / more-than-20-blocks validation attempt; end
of audio activity with the 0.3 s / more-than-10-blocks validation attempt
before the reset; idle fall-through.  `detectionStartTime || 0` is
`Option.getD 0` (JS falsy-null coalescing agrees with it on every value the
field takes). -/
def processSample {ε : Type} (cb : AudioFeatures → Except ε Unit) (now : ℝ)
    (audioData : List ℝ) (sampleRate : ℝ) (st : CryEngineState) : StepResult ε :=
  let rms := calculateRMS audioData
  let isCryingLevel := rmsExceeds rms cryThreshold
  if isCryingLevel ∧ st.isDetectingCry = false then
    { ret := .ok false, state := ⟨true, some now, [audioData]⟩, emitted := none }
  else if isCryingLevel ∧ st.isDetectingCry = true then
    let st1 : CryEngineState := { st with analysisBuffer := st.analysisBuffer ++ [audioData] }
    let duration := (now - st.detectionStartTime.getD 0) / 1000
    if duration ≥ 0.5 ∧ st1.analysisBuffer.length > 20 then
      if validateCryPattern st1.analysisBuffer sampleRate then
        processCryDetection cb sampleRate st1
      else { ret := .ok false, state := st1, emitted := none }
    else { ret := .ok false, state := st1, emitted := none }
  else if ¬ isCryingLevel ∧ st.isDetectingCry = true then
    let duration := (now - st.detectionStartTime.getD 0) / 1000
    if duration ≥ 0.3 ∧ st.analysisBuffer.length > 10 then
      if validateCryPattern st.analysisBuffer sampleRate then
        processCryDetection cb sampleRate st
      else { ret := .ok false, state := initEngineState, emitted := none }
    else { ret := .ok false, state := initEngineState, emitted := none }
  else
    { ret := .ok false, state := st, emitted := none }

/-- Drive an engine over successive timed blocks, collecting every step's
result; the object state threads from step to step. -/
def runBlocks {ε : Type} (cb : AudioFeatures → Except ε Unit) (sampleRate : ℝ) :
    List (ℝ × List ℝ) → CryEngineState → List (StepResult ε)
  | [], _ => []
  | (now, block) :: rest, st =>
    let r := processSample cb now block sampleRate st
    r :: runBlocks cb sampleRate rest r.state

/-- Claim C2: `validateCryPattern` accepts a buffered block sequence iff the
F0 estimated over the concatenation lies in [300, 1200] Hz, the spectral
centroid of the concatenation strictly exceeds 500 Hz, and the
concatenation's sample count divided by the sample rate is at least 0.3 s;
the three conditions are jointly necessary and sufficient. -/
theorem claim_C2 (buffer : List (List ℝ)) (sampleRate : ℝ) :
    validateCryPattern buffer sampleRate ↔
      ((300 ≤ estimateF0 buffer.flatten sampleRate ∧
          estimateF0 buffer.flatten sampleRate ≤ 1200) ∧
        500 < calculateSpectralCentroid buffer.flatten sampleRate ∧
        0.3 ≤ (buffer.flatten.length : ℝ) / sampleRate) := by
  constructor
  · intro h
    exact ⟨⟨h.1, h.2.1⟩, h.2.2.1, h.2.2.2⟩
  · intro h
    exact ⟨h.1.1, h.1.2, h.2.1, h.2.2⟩

/-- A NaN RMS (`none`) never exceeds a threshold. -/
theorem not_rmsExceeds_none (threshold : ℝ) : ¬ rmsExceeds none threshold :=
  fun ⟨_, hx, _⟩ => Option.noConfusion hx

/-- On a below-threshold block from an idle state, `processSample` falls
through every branch: it returns false with the state untouched. -/
theorem processSample_low_idle {ε : Type} (cb : AudioFeatures → Except ε Unit)
    (now : ℝ) (block : List ℝ) (sampleRate : ℝ) (st : CryEngineState)
    (hidle : st.isDetectingCry = false)
    (hlow : ¬ rmsExceeds (calculateRMS block) cryThreshold) :
    processSample cb now block sampleRate st = ⟨Except.ok false, st, none⟩ := by
  simp only [processSample]
  rw [if_neg (fun h => hlow h.1), if_neg (fun h => hlow h.1),
    if_neg (fun h => by rw [hidle] at h; exact Bool.false_ne_true h.2)]

/-- On a below-threshold block while detecting, with the 0.3 s duration and
more-than-10-blocks guards met and the buffer validating, `processSample`
takes the end-of-activity confirmation path. -/
theorem processSample_end_confirm {ε : Type} (cb : AudioFeatures → Except ε Unit)
    (now : ℝ) (block : List ℝ) (sampleRate : ℝ) (st : CryEngineState)
    (hdet : st.isDetectingCry = true)
    (hlow : ¬ rmsExceeds (calculateRMS block) cryThreshold)
    (hdur : (now - st.detectionStartTime.getD 0) / 1000 ≥ 0.3)
    (hcount : st.analysisBuffer.length > 10)
    (hvalid : validateCryPattern st.analysisBuffer sampleRate) :
    processSample cb now block sampleRate st = processCryDetection cb sampleRate st := by
  simp only [processSample]
  rw [if_neg (fun h => hlow h.1), if_neg (fun h => hlow h.1), if_pos ⟨hlow, hdet⟩,
    if_pos ⟨hdur, hcount⟩, if_pos hvalid]

/-- Behavior of `processCryDetection` when the callback returns normally: the engine
reports true and resets to the idle constructor state. -/
theorem processCryDetection_ok {ε : Type} {cb : AudioFeatures → Except ε Unit}
    {sampleRate : ℝ} {st : CryEngineState} {u : Unit}
    (h : cb (detectionFeatures st.analysisBuffer.flatten sampleRate) = Except.ok u) :
    processCryDetection cb sampleRate st
      = ⟨Except.ok true, initEngineState,
          some (detectionFeatures st.analysisBuffer.flatten sampleRate)⟩ := by
  simp only [processCryDetection, h]

/-- Behavior of `processCryDetection` when the callback throws: the exception is the
call's outcome and the state is left exactly as it was (`resetDetection`
is skipped). -/
theorem processCryDetection_error {ε : Type} {cb : AudioFeatures → Except ε Unit}
    {sampleRate : ℝ} {st : CryEngineState} {e : ε}
    (h : cb (detectionFeatures st.analysisBuffer.flatten sampleRate) = Except.error e) :
    processCryDetection cb sampleRate st
      = ⟨Except.error e, st,
          some (detectionFeatures st.analysisBuffer.flatten sampleRate)⟩ := by
  simp only [processCryDetection, h]

/-- The callback is always invoked on the confirmation path. -/
theorem processCryDetection_emitted {ε : Type} (cb : AudioFeatures → Except ε Unit)
    (sampleRate : ℝ) (st : CryEngineState) :
    (processCryDetection cb sampleRate st).emitted
      = some (detectionFeatures st.analysisBuffer.flatten sampleRate) := by
  rcases hcb : cb (detectionFeatures st.analysisBuffer.flatten sampleRate) with e | u
  · rw [processCryDetection_error hcb]
  · rw [processCryDetection_ok hcb]

/-- The confirmation path never grows the buffer. -/
theorem processCryDetection_buffer_le {ε : Type} (cb : AudioFeatures → Except ε Unit)
    (sampleRate : ℝ) (st : CryEngineState) :
    (processCryDetection cb sampleRate st).state.analysisBuffer.length
      ≤ st.analysisBuffer.length := by
  rcases hcb : cb (detectionFeatures st.analysisBuffer.flatten sampleRate) with e | u
  · rw [processCryDetection_error hcb]
  · rw [processCryDetection_ok hcb]
    exact Nat.zero_le _

/-- On an above-threshold block while detecting, with the 0.5 s duration
and more-than-20-blocks guards met over the buffer extended with the block
and that extended buffer validating, `processSample` takes the
mid-accumulation confirmation path. -/
theorem processSample_acc_confirm {ε : Type} (cb : AudioFeatures → Except ε Unit)
    (now : ℝ) (block : List ℝ) (sampleRate : ℝ) (st : CryEngineState)
    (hdet : st.isDetectingCry = true)
    (hhigh : rmsExceeds (calculateRMS block) cryThreshold)
    (hdur : (now - st.detectionStartTime.getD 0) / 1000 ≥ 0.5)
    (hcount : (st.analysisBuffer ++ [block]).length > 20)
    (hvalid : validateCryPattern (st.analysisBuffer ++ [block]) sampleRate) :
    processSample cb now block sampleRate st
      = processCryDetection cb sampleRate
          { st with analysisBuffer := st.analysisBuffer ++ [block] } := by
  simp only [processSample]
  rw [if_neg (fun h => by rw [hdet] at h; exact Bool.noConfusion h.2),
    if_pos ⟨hhigh, hdet⟩, if_pos ⟨hdur, hcount⟩, if_pos hvalid]

/-- Claim C1 (amended): on every confirmation path of `processSample` — the
mid-accumulation path (above-threshold block, the 0.5 s and
more-than-20-blocks guards, validation over the buffer extended with the
incoming block, `cryDetection.ts` lines 77-82) as well as the
end-of-activity path (below-threshold block, the 0.3 s and
more-than-10-blocks guards, validation over the buffer as is, lines
86-91) — the callback is invoked with the features of the buffered audio;
if the callback returns normally the call returns true and the detector
resets to `Idle`, but if the callback throws, the exception propagates out
of `processSample` as the call's outcome and the detector state is left
unreset: still detecting, start time intact, buffer intact (extended by
the block on the mid-accumulation path).  The source has no handler around
the callback, so exceptions are not caught at the detector boundary. -/
theorem claim_C1_amended {ε : Type} (cb : AudioFeatures → Except ε Unit)
    (now sampleRate : ℝ) (st : CryEngineState) (block : List ℝ) :
    (st.isDetectingCry = true →
      rmsExceeds (calculateRMS block) cryThreshold →
      (now - st.detectionStartTime.getD 0) / 1000 ≥ 0.5 →
      (st.analysisBuffer ++ [block]).length > 20 →
      validateCryPattern (st.analysisBuffer ++ [block]) sampleRate →
      (processSample cb now block sampleRate st).emitted
          = some (detectionFeatures (st.analysisBuffer ++ [block]).flatten sampleRate) ∧
      (∀ u : Unit,
        cb (detectionFeatures (st.analysisBuffer ++ [block]).flatten sampleRate)
            = Except.ok u →
        processSample cb now block sampleRate st
          = ⟨Except.ok true, initEngineState,
              some (detectionFeatures (st.analysisBuffer ++ [block]).flatten sampleRate)⟩) ∧
      (∀ e : ε,
        cb (detectionFeatures (st.analysisBuffer ++ [block]).flatten sampleRate)
            = Except.error e →
        processSample cb now block sampleRate st
          = ⟨Except.error e,
              { st with analysisBuffer := st.analysisBuffer ++ [block] },
              some (detectionFeatures (st.analysisBuffer ++ [block]).flatten sampleRate)⟩)) ∧
    (st.isDetectingCry = true →
      ¬ rmsExceeds (calculateRMS block) cryThreshold →
      (now - st.detectionStartTime.getD 0) / 1000 ≥ 0.3 →
      st.analysisBuffer.length > 10 →
      validateCryPattern st.analysisBuffer sampleRate →
      (processSample cb now block sampleRate st).emitted
          = some (detectionFeatures st.analysisBuffer.flatten sampleRate) ∧
      (∀ u : Unit,
        cb (detectionFeatures st.analysisBuffer.flatten sampleRate) = Except.ok u →
        processSample cb now block sampleRate st
          = ⟨Except.ok true, initEngineState,
              some (detectionFeatures st.analysisBuffer.flatten sampleRate)⟩) ∧
      (∀ e : ε,
        cb (detectionFeatures st.analysisBuffer.flatten sampleRate) = Except.error e →
        processSample cb now block sampleRate st
          = ⟨Except.error e, st,
              some (detectionFeatures st.analysisBuffer.flatten sampleRate)⟩)) := by
  constructor
  · intro hdet hhigh hdur hcount hvalid
    have hstep := processSample_acc_confirm cb now block sampleRate st hdet hhigh hdur
      hcount hvalid
    refine ⟨?_, fun u hu => ?_, fun e he => ?_⟩
    · rw [hstep]
      exact processCryDetection_emitted cb sampleRate _
    · rw [hstep]
      exact @processCryDetection_ok ε cb sampleRate
        { st with analysisBuffer := st.analysisBuffer ++ [block] } u hu
    · rw [hstep]
      exact @processCryDetection_error ε cb sampleRate
        { st with analysisBuffer := st.analysisBuffer ++ [block] } e he
  · intro hdet hlow hdur hcount hvalid
    have hstep := processSample_end_confirm cb now block sampleRate st hdet hlow hdur
      hcount hvalid
    refine ⟨?_, fun u hu => ?_, fun e he => ?_⟩
    · rw [hstep, processCryDetection_emitted]
    · rw [hstep, processCryDetection_ok hu]
    · rw [hstep, processCryDetection_error he]

/-- Claim C10: a zero-length block has NaN RMS (`none`), which compares
below threshold; from an idle state the call is a no-op returning false,
and from a detecting state the call takes the end-of-activity branch —
never extending the buffer — exactly as for any other below-threshold
block. -/
theorem claim_C10 {ε : Type} (cb : AudioFeatures → Except ε Unit)
    (now sampleRate : ℝ) (st : CryEngineState) :
    calculateRMS [] = none ∧
    ¬ rmsExceeds (calculateRMS []) cryThreshold ∧
    (st.isDetectingCry = false →
      processSample cb now [] sampleRate st = ⟨Except.ok false, st, none⟩) ∧
    (st.isDetectingCry = true →
      processSample cb now [] sampleRate st
        = (if (now - st.detectionStartTime.getD 0) / 1000 ≥ 0.3
              ∧ st.analysisBuffer.length > 10 then
            if validateCryPattern st.analysisBuffer sampleRate then
              processCryDetection cb sampleRate st
            else ⟨Except.ok false, initEngineState, none⟩
          else ⟨Except.ok false, initEngineState, none⟩) ∧
      (processSample cb now [] sampleRate st).state.analysisBuffer.length
        ≤ st.analysisBuffer.length) := by
  have hrms : calculateRMS [] = none := rfl
  have hlow : ¬ rmsExceeds (calculateRMS []) cryThreshold := by
    rw [hrms]
    exact not_rmsExceeds_none cryThreshold
  refine ⟨hrms, hlow, fun hidle => processSample_low_idle cb now [] sampleRate st hidle hlow,
    fun hdet => ?_⟩
  have hbranch : processSample cb now [] sampleRate st
      = (if (now - st.detectionStartTime.getD 0) / 1000 ≥ 0.3
            ∧ st.analysisBuffer.length > 10 then
          if validateCryPattern st.analysisBuffer sampleRate then
            processCryDetection cb sampleRate st
          else ⟨Except.ok false, initEngineState, none⟩
        else ⟨Except.ok false, initEngineState, none⟩) := by
    simp only [processSample]
    rw [if_neg (fun h => hlow h.1), if_neg (fun h => hlow h.1), if_pos ⟨hlow, hdet⟩]
  refine ⟨hbranch, ?_⟩
  rw [hbranch]
  by_cases h1 : (now - st.detectionStartTime.getD 0) / 1000 ≥ 0.3
      ∧ st.analysisBuffer.length > 10
  · rw [if_pos h1]
    by_cases h2 : validateCryPattern st.analysisBuffer sampleRate
    · rw [if_pos h2]
      exact processCryDetection_buffer_le cb sampleRate st
    · rw [if_neg h2]
      exact Nat.zero_le _
  · rw [if_neg h1]
    exact Nat.zero_le _

/-- A callback that returns normally, for concrete runs. -/
def okCb : AudioFeatures → Except Unit Unit := fun _ => Except.ok ()

/-- A callback that always throws, for concrete runs. -/
def errCb : AudioFeatures → Except Unit Unit := fun _ => Except.error ()

/-- Witness for claim C10 at concrete states: the zero-length block is a
no-op from idle, and from a detecting state (here one whose duration guard
fails) the end-of-activity branch resets to idle without buffering. -/
theorem claim_C10_witness :
    calculateRMS ([] : List ℝ) = none ∧
    processSample okCb 0 [] 44100 initEngineState
        = ⟨Except.ok false, initEngineState, none⟩ ∧
    processSample okCb 0 [] 44100 ⟨true, some 0, [[1]]⟩
        = ⟨Except.ok false, initEngineState, none⟩ := by
  obtain ⟨h1, _, h3, _⟩ := claim_C10 okCb 0 44100 initEngineState
  obtain ⟨_, _, _, g4⟩ := claim_C10 okCb 0 44100 ⟨true, some 0, [[1]]⟩
  refine ⟨h1, h3 rfl, ?_⟩
  rw [(g4 rfl).1, if_neg]
  intro h
  have := h.2
  simp at this

/-- From an idle state, below-threshold blocks keep the engine idle: every
step returns false with no callback invocation, and the state never
changes. -/
theorem runBlocks_low {ε : Type} (cb : AudioFeatures → Except ε Unit) (sampleRate : ℝ) :
    ∀ (blocks : List (ℝ × List ℝ)) (st : CryEngineState),
      st.isDetectingCry = false →
      (∀ b ∈ blocks, ¬ rmsExceeds (calculateRMS b.2) cryThreshold) →
      ∀ r ∈ runBlocks cb sampleRate blocks st,
        r.ret = Except.ok false ∧ r.emitted = none := by
  intro blocks
  induction blocks with
  | nil =>
    intro st hst hlow r hr
    simp [runBlocks] at hr
  | cons b rest ih =>
    obtain ⟨t, blk⟩ := b
    intro st hst hlow r hr
    have hstep := processSample_low_idle cb t blk sampleRate st hst
      (hlow (t, blk) (List.mem_cons_self _ _))
    simp only [runBlocks] at hr
    rcases List.mem_cons.mp hr with h | h
    · rw [h, hstep]
      exact ⟨rfl, rfl⟩
    · rw [hstep] at h
      exact ih st hst (fun b hb => hlow b (List.mem_cons_of_mem _ hb)) r h

/-- Claim C8: for every finite sequence of timed blocks whose RMS values
are all at most the cry threshold, an engine started in the idle
constructor state never invokes the confirmation callback, and every
`processSample` call in the sequence returns false. -/
theorem claim_C8 {ε : Type} (cb : AudioFeatures → Except ε Unit) (sampleRate : ℝ)
    (blocks : List (ℝ × List ℝ))
    (hlow : ∀ b ∈ blocks, ∃ x, calculateRMS b.2 = some x ∧ x ≤ cryThreshold) :
    ∀ r ∈ runBlocks cb sampleRate blocks initEngineState,
      r.ret = Except.ok false ∧ r.emitted = none := by
  apply runBlocks_low cb sampleRate blocks initEngineState rfl
  intro b hb
  obtain ⟨x, hx, hxle⟩ := hlow b hb
  rintro ⟨y, hy, hylt⟩
  rw [hx] at hy
  rw [Option.some_inj.mp hy] at hxle
  exact absurd hylt (not_lt.mpr hxle)

/-- The RMS of a concrete silent block is 0. -/
theorem calculateRMS_zeros : calculateRMS [0, 0, 0] = some 0 := by
  simp [calculateRMS, Finset.sum_range_succ]

/-- Witness for claim C8 on a concrete one-block silent sequence. -/
theorem claim_C8_witness :
    (processSample okCb 0 [0, 0, 0] 44100 initEngineState).ret = Except.ok false ∧
    (processSample okCb 0 [0, 0, 0] 44100 initEngineState).emitted = none := by
  have hyp : ∀ b ∈ [((0 : ℝ), [(0 : ℝ), 0, 0])],
      ∃ x, calculateRMS b.2 = some x ∧ x ≤ cryThreshold := by
    intro b hb
    rw [List.mem_singleton] at hb
    subst hb
    exact ⟨0, calculateRMS_zeros, by norm_num [cryThreshold]⟩
  have h := claim_C8 okCb 44100 [(0, [0, 0, 0])] hyp
  have hmem : processSample okCb 0 [0, 0, 0] 44100 initEngineState
      ∈ runBlocks okCb 44100 [(0, [0, 0, 0])] initEngineState := by
    simp only [runBlocks]
    exact List.mem_cons_self _ _
  exact h _ hmem

/-- Evaluation of `getD` on a list generated by mapping over `List.range`. -/
theorem rangeMap_getD (f : ℕ → ℝ) (N i : ℕ) :
    ((List.range N).map f).getD i 0 = if i < N then f i else 0 := by
  by_cases h : i < N
  · rw [if_pos h, List.getD_eq_getElem?_getD, List.getElem?_map, List.getElem?_range h]
    rfl
  · rw [if_neg h, List.getD_eq_getElem?_getD, List.getElem?_map]
    rw [List.getElem?_eq_none (by simpa using not_lt.mp h)]
    rfl

/-- A 3-periodic function is determined by its phase. -/
theorem periodic3_apply (f : ℕ → ℝ) (hf : ∀ n, f (n + 3) = f n) (q r : ℕ) :
    f (3 * q + r) = f r := by
  induction q with
  | zero => simp
  | succ q ih =>
    have h : 3 * (q + 1) + r = 3 * q + r + 3 := by ring
    rw [h, hf, ih]

/-- Sum of a 3-periodic function over three full periods times `q`. -/
theorem sum_range_mul3 (f : ℕ → ℝ) (hf : ∀ n, f (n + 3) = f n) (q : ℕ) :
    ∑ i ∈ Finset.range (3 * q), f i = q * (f 0 + f 1 + f 2) := by
  induction q with
  | zero => simp
  | succ q ih =>
    have h : 3 * (q + 1) = 3 * q + 1 + 1 + 1 := by ring
    rw [h, Finset.sum_range_succ, Finset.sum_range_succ, Finset.sum_range_succ, ih]
    have e0 : f (3 * q) = f 0 := by simpa using periodic3_apply f hf q 0
    have e1 : f (3 * q + 1) = f 1 := periodic3_apply f hf q 1
    have e2 : f (3 * q + 1 + 1) = f 2 := by
      have h2 : 3 * q + 1 + 1 = 3 * q + 2 := by ring
      rw [h2]
      exact periodic3_apply f hf q 2
    rw [e0, e1, e2]
    push_cast
    ring

/-- The 3-periodic sample pattern 2, -1, -1 used for the concrete
cry-shaped test signal: a pure sampled tone at a third of the sample
rate. -/
def patternVal (n : ℕ) : ℝ := if n % 3 = 0 then 2 else -1

theorem patternVal_add3 (n : ℕ) : patternVal (n + 3) = patternVal n := by
  simp [patternVal, Nat.add_mod_right]

/-- A 0.31 s test signal at 1800 Hz: 561 samples of the 2, -1, -1
pattern. -/
def sig561 : List ℝ := (List.range 561).map patternVal

/-- One 51-sample block of the same pattern. -/
def block51 : List ℝ := (List.range 51).map patternVal

/-- Eleven consecutive pattern blocks: the analysis buffer of the concrete
confirmation run. -/
def bufferEleven : List (List ℝ) := List.replicate 11 block51

theorem sig561_length : sig561.length = 561 := by simp [sig561]

theorem sig561_getD {i : ℕ} (h : i < 561) : sig561.getD i 0 = patternVal i := by
  rw [sig561, rangeMap_getD, if_pos h]

/-- Concatenating pattern blocks continues the pattern. -/
theorem flatten_replicate_block51 (m : ℕ) :
    (List.replicate m block51).flatten = (List.range (51 * m)).map patternVal := by
  induction m with
  | zero => simp
  | succ m ih =>
    rw [List.replicate_succ, List.flatten_cons, ih]
    have h : 51 * (m + 1) = 51 + 51 * m := by ring
    rw [h, List.range_add, List.map_append, List.map_map]
    congr 1
    refine List.map_congr_left fun i _ => ?_
    show patternVal i = patternVal (51 + i)
    have hmod : (51 + i) % 3 = i % 3 := by omega
    simp [patternVal, hmod]

theorem bufferEleven_flatten : bufferEleven.flatten = sig561 := by
  rw [bufferEleven, flatten_replicate_block51]
  norm_num [sig561]

/-- Over the in-range indices, the autocorrelation of the test signal is the
autocorrelation of the pattern. -/
theorem autocorr_sig561_eq (p : ℕ) (hple : p ≤ 6) :
    autocorr sig561 p
      = ∑ i ∈ Finset.range (561 - p), patternVal i * patternVal (i + p) := by
  rw [autocorr, sig561_length]
  refine Finset.sum_congr rfl fun i hi => ?_
  rw [Finset.mem_range] at hi
  rw [sig561_getD (by omega), sig561_getD (by omega)]

theorem autocorr_sig561_one : autocorr sig561 1 = -559 := by
  rw [autocorr_sig561_eq 1 (by norm_num)]
  have hper : ∀ i, patternVal (i + 3) * patternVal (i + 3 + 1)
      = patternVal i * patternVal (i + 1) := by
    intro i
    have h : i + 3 + 1 = i + 1 + 3 := by ring
    rw [h, patternVal_add3, patternVal_add3]
  have h560 : (561 - 1 : ℕ) = 3 * 186 + 1 + 1 := by norm_num
  rw [h560, Finset.sum_range_succ, Finset.sum_range_succ,
    sum_range_mul3 (fun i => patternVal i * patternVal (i + 1)) hper 186]
  norm_num [patternVal]

theorem autocorr_sig561_two : autocorr sig561 2 = -560 := by
  rw [autocorr_sig561_eq 2 (by norm_num)]
  have hper : ∀ i, patternVal (i + 3) * patternVal (i + 3 + 2)
      = patternVal i * patternVal (i + 2) := by
    intro i
    have h : i + 3 + 2 = i + 2 + 3 := by ring
    rw [h, patternVal_add3, patternVal_add3]
  have h559 : (561 - 2 : ℕ) = 3 * 186 + 1 := by norm_num
  rw [h559, Finset.sum_range_succ,
    sum_range_mul3 (fun i => patternVal i * patternVal (i + 2)) hper 186]
  norm_num [patternVal]

theorem autocorr_sig561_three : autocorr sig561 3 = 1116 := by
  rw [autocorr_sig561_eq 3 (by norm_num)]
  have hper : ∀ i, patternVal (i + 3) * patternVal (i + 3 + 3)
      = patternVal i * patternVal (i + 3) := by
    intro i
    rw [patternVal_add3 (i + 3), patternVal_add3 i]
  have h558 : (561 - 3 : ℕ) = 3 * 186 := by norm_num
  rw [h558, sum_range_mul3 (fun i => patternVal i * patternVal (i + 3)) hper 186]
  norm_num [patternVal]

theorem autocorr_sig561_four : autocorr sig561 4 = -556 := by
  rw [autocorr_sig561_eq 4 (by norm_num)]
  have hper : ∀ i, patternVal (i + 3) * patternVal (i + 3 + 4)
      = patternVal i * patternVal (i + 4) := by
    intro i
    have h : i + 3 + 4 = i + 4 + 3 := by ring
    rw [h, patternVal_add3, patternVal_add3]
  have h557 : (561 - 4 : ℕ) = 3 * 185 + 1 + 1 := by norm_num
  rw [h557, Finset.sum_range_succ, Finset.sum_range_succ,
    sum_range_mul3 (fun i => patternVal i * patternVal (i + 4)) hper 185]
  norm_num [patternVal]

theorem autocorr_sig561_five : autocorr sig561 5 = -557 := by
  rw [autocorr_sig561_eq 5 (by norm_num)]
  have hper : ∀ i, patternVal (i + 3) * patternVal (i + 3 + 5)
      = patternVal i * patternVal (i + 5) := by
    intro i
    have h : i + 3 + 5 = i + 5 + 3 := by ring
    rw [h, patternVal_add3, patternVal_add3]
  have h556 : (561 - 5 : ℕ) = 3 * 185 + 1 := by norm_num
  rw [h556, Finset.sum_range_succ,
    sum_range_mul3 (fun i => patternVal i * patternVal (i + 5)) hper 185]
  norm_num [patternVal]

theorem autocorr_sig561_six : autocorr sig561 6 = 1110 := by
  rw [autocorr_sig561_eq 6 (by norm_num)]
  have hper : ∀ i, patternVal (i + 3) * patternVal (i + 3 + 6)
      = patternVal i * patternVal (i + 6) := by
    intro i
    have h : i + 3 + 6 = i + 6 + 3 := by ring
    rw [h, patternVal_add3, patternVal_add3]
  have h555 : (561 - 6 : ℕ) = 3 * 185 := by norm_num
  rw [h555, sum_range_mul3 (fun i => patternVal i * patternVal (i + 6)) hper 185]
  norm_num [patternVal]

theorem floor_1800_1200 : (⌊(1800 : ℝ) / 1200⌋).toNat = 1 := by
  have h : (1800 : ℝ) / 1200 = 3 / 2 := by norm_num
  have h2 : ⌊(3 / 2 : ℝ)⌋ = 1 := by
    rw [Int.floor_eq_iff]
    norm_num
  rw [h, h2]
  rfl

theorem floor_1800_300 : (⌊(1800 : ℝ) / 300⌋).toNat = 6 := by
  have h : (1800 : ℝ) / 300 = ((6 : ℤ) : ℝ) := by norm_num
  rw [h, Int.floor_intCast]
  rfl

/-- The running-maximum scan over lags 1..6 of the test signal settles on
lag 3 with correlation 1116 (the strict maximum). -/
theorem f0Fold_sig561 :
    (scannedPeriods 1 6 561).foldl (f0Step sig561) (0, 0) = ((1116 : ℝ), 3) := by
  rw [show scannedPeriods 1 6 561 = [1, 2, 3, 4, 5, 6] from by decide]
  simp only [List.foldl_cons, List.foldl_nil, f0Step, autocorr_sig561_one,
    autocorr_sig561_two, autocorr_sig561_three, autocorr_sig561_four,
    autocorr_sig561_five, autocorr_sig561_six]
  norm_num

/-- The F0 estimate of the test signal at 1800 Hz is 600 Hz. -/
theorem estimateF0_sig561 : estimateF0 sig561 1800 = 600 := by
  simp only [estimateF0, floor_1800_1200, floor_1800_300, sig561_length, f0Fold_sig561]
  norm_num

/-- The 561st root of unity with exponent `m` (561 samples of a tone with
period 3 put all DFT energy at bins 187 and 374). -/
def unitExp (m : ℤ) : ℂ :=
  Complex.exp (((2 * Real.pi * m / 561 : ℝ) : ℂ) * Complex.I)

theorem unitExp_add (a b : ℤ) : unitExp (a + b) = unitExp a * unitExp b := by
  rw [unitExp, unitExp, unitExp, ← Complex.exp_add]
  congr 1
  push_cast
  ring

theorem unitExp_pow (m : ℤ) (n : ℕ) : unitExp m ^ n = unitExp (m * n) := by
  rw [unitExp, unitExp, ← Complex.exp_nat_mul]
  congr 1
  push_cast
  ring

theorem unitExp_eq_one_iff (m : ℤ) : unitExp m = 1 ↔ (561 : ℤ) ∣ m := by
  rw [unitExp, Complex.exp_eq_one_iff]
  constructor
  · rintro ⟨n, hn⟩
    have hrhs : ((n : ℂ)) * (2 * (Real.pi : ℂ) * Complex.I)
        = (((n * (2 * Real.pi)) : ℝ) : ℂ) * Complex.I := by
      push_cast
      ring
    rw [hrhs] at hn
    have hr : (2 * Real.pi * m / 561 : ℝ) = n * (2 * Real.pi) :=
      Complex.ofReal_inj.mp (mul_right_cancel₀ Complex.I_ne_zero hn)
    have hm : (m : ℝ) = 561 * n := by
      have h2pi : (2 * Real.pi) ≠ 0 := mul_ne_zero two_ne_zero Real.pi_ne_zero
      have hpi := Real.pi_ne_zero
      field_simp at hr
      have h : 2 * Real.pi * (m : ℝ) = 2 * Real.pi * (561 * n) := by
        linear_combination hr
      exact mul_left_cancel₀ h2pi h
    exact ⟨n, by exact_mod_cast hm⟩
  · rintro ⟨c, rfl⟩
    refine ⟨c, ?_⟩
    push_cast
    field_simp
    ring

theorem unitExp_zero : unitExp 0 = 1 :=
  (unitExp_eq_one_iff 0).mpr (dvd_zero 561)

/-- Sum of the powers of a 561st root of unity over one full period. -/
theorem sum_pow_unit_root (x : ℂ) (hx : x ^ 561 = 1) :
    ∑ n ∈ Finset.range 561, x ^ n = if x = 1 then (561 : ℂ) else 0 := by
  by_cases h1 : x = 1
  · rw [if_pos h1, h1]
    simp
  · rw [if_neg h1, geom_sum_eq h1, hx, sub_self, zero_div]

theorem unitExp_sum3 : unitExp 187 + unitExp 374 = -1 := by
  have hne : unitExp 187 ≠ 1 := by
    rw [Ne, unitExp_eq_one_iff]
    rintro ⟨c, hc⟩
    omega
  have h3 : unitExp 187 ^ 3 = 1 := by
    rw [unitExp_pow]
    exact (unitExp_eq_one_iff _).mpr ⟨1, by norm_num⟩
  have hgeom := geom_sum_eq hne 3
  rw [h3, sub_self, zero_div] at hgeom
  have hexp : ∑ i ∈ Finset.range 3, unitExp 187 ^ i
      = 1 + unitExp 187 + unitExp 187 ^ 2 := by
    rw [Finset.sum_range_succ, Finset.sum_range_succ, Finset.sum_range_succ]
    norm_num
  have h2 : unitExp 187 ^ 2 = unitExp 374 := by
    rw [unitExp_pow]
    norm_num
  rw [hexp, h2] at hgeom
  linear_combination hgeom

/-- The pattern samples are sums of two conjugate 561st roots of unity. -/
theorem patternVal_complex (n : ℕ) :
    (patternVal n : ℂ) = unitExp 187 ^ n + unitExp 374 ^ n := by
  obtain ⟨q, r, hr, rfl⟩ : ∃ q r, r < 3 ∧ n = 3 * q + r :=
    ⟨n / 3, n % 3, Nat.mod_lt n (by norm_num), (Nat.div_add_mod n 3).symm⟩
  have h1 : unitExp 187 ^ (3 * q + r) = unitExp (187 * r) := by
    rw [unitExp_pow]
    have h : (187 : ℤ) * ((3 * q + r : ℕ) : ℤ) = 561 * q + 187 * r := by
      push_cast
      ring
    rw [h, unitExp_add, (unitExp_eq_one_iff _).mpr (dvd_mul_right 561 (q : ℤ)), one_mul]
  have h2 : unitExp 374 ^ (3 * q + r) = unitExp (374 * r) := by
    rw [unitExp_pow]
    have h : (374 : ℤ) * ((3 * q + r : ℕ) : ℤ) = 561 * (2 * q) + 374 * r := by
      push_cast
      ring
    rw [h, unitExp_add, (unitExp_eq_one_iff _).mpr (dvd_mul_right 561 (2 * (q : ℤ))), one_mul]
  rw [h1, h2]
  have hpat : patternVal (3 * q + r) = patternVal r := periodic3_apply patternVal patternVal_add3 q r
  rw [hpat]
  interval_cases r
  · norm_num [patternVal, unitExp_zero]
  · norm_num [patternVal]
    linear_combination -unitExp_sum3
  · have h748 : unitExp 748 = unitExp 187 := by
      rw [show (748 : ℤ) = 561 + 187 from by norm_num, unitExp_add,
        (unitExp_eq_one_iff 561).mpr ⟨1, by norm_num⟩, one_mul]
    norm_num [patternVal, h748]
    linear_combination -unitExp_sum3

/-- DFT of the pattern signal: the two geometric sums collapse onto bins
187 and 374. -/
theorem dft_sig561 (k : ℕ) (hk : k < 561) :
    ∑ n ∈ Finset.range 561, (patternVal n : ℂ) * unitExp (-(k : ℤ)) ^ n
      = (if k = 187 then (561 : ℂ) else 0) + (if k = 374 then (561 : ℂ) else 0) := by
  have hsplit : ∀ n ∈ Finset.range 561,
      (patternVal n : ℂ) * unitExp (-(k : ℤ)) ^ n
        = unitExp ((187 : ℤ) - k) ^ n + unitExp ((374 : ℤ) - k) ^ n := by
    intro n _
    rw [patternVal_complex, add_mul, ← mul_pow, ← mul_pow, ← unitExp_add, ← unitExp_add]
    norm_num [sub_eq_add_neg]
  rw [Finset.sum_congr rfl hsplit, Finset.sum_add_distrib]
  have hx1 : unitExp ((187 : ℤ) - k) ^ 561 = 1 := by
    rw [unitExp_pow]
    exact (unitExp_eq_one_iff _).mpr (by push_cast; exact dvd_mul_left 561 _)
  have hx2 : unitExp ((374 : ℤ) - k) ^ 561 = 1 := by
    rw [unitExp_pow]
    exact (unitExp_eq_one_iff _).mpr (by push_cast; exact dvd_mul_left 561 _)
  have hiff1 : unitExp ((187 : ℤ) - (k : ℤ)) = 1 ↔ k = 187 := by
    rw [unitExp_eq_one_iff]
    constructor
    · rintro ⟨c, hc⟩
      omega
    · rintro rfl
      exact ⟨0, by norm_num⟩
  have hiff2 : unitExp ((374 : ℤ) - (k : ℤ)) = 1 ↔ k = 374 := by
    rw [unitExp_eq_one_iff]
    constructor
    · rintro ⟨c, hc⟩
      omega
    · rintro rfl
      exact ⟨0, by norm_num⟩
  rw [sum_pow_unit_root _ hx1, sum_pow_unit_root _ hx2,
    if_congr hiff1 rfl rfl, if_congr hiff2 rfl rfl]

/-- The DFT bins of the test signal: all energy sits at bins 187 and 374,
with zero imaginary part. -/
theorem simpleFFT_sig561 (k : ℕ) (hk : k < 561) :
    simpleFFT sig561 k
      = ((if k = 187 then (561 : ℝ) else 0) + (if k = 374 then (561 : ℝ) else 0), 0) := by
  have hterm : ∀ n : ℕ, ((patternVal n : ℂ) * unitExp (-(k : ℤ)) ^ n)
      = (patternVal n : ℂ)
          * Complex.exp (((-2 * Real.pi * k * n / 561 : ℝ) : ℂ) * Complex.I) := by
    intro n
    rw [unitExp_pow, unitExp]
    congr 2
    push_cast
    ring
  have hS := dft_sig561 k hk
  have hre : (∑ n ∈ Finset.range 561, (patternVal n : ℂ) * unitExp (-(k : ℤ)) ^ n).re
      = ∑ n ∈ Finset.range 561, patternVal n * Real.cos (-2 * Real.pi * k * n / 561) := by
    rw [Complex.re_sum]
    refine Finset.sum_congr rfl fun n _ => ?_
    rw [hterm n, Complex.re_ofReal_mul, Complex.exp_ofReal_mul_I_re]
  have him : (∑ n ∈ Finset.range 561, (patternVal n : ℂ) * unitExp (-(k : ℤ)) ^ n).im
      = ∑ n ∈ Finset.range 561, patternVal n * Real.sin (-2 * Real.pi * k * n / 561) := by
    rw [Complex.im_sum]
    refine Finset.sum_congr rfl fun n _ => ?_
    rw [hterm n, Complex.im_ofReal_mul, Complex.exp_ofReal_mul_I_im]
  refine Prod.ext ?_ ?_
  · show (∑ n ∈ Finset.range sig561.length,
        sig561.getD n 0 * Real.cos (-2 * Real.pi * k * n / sig561.length))
      = (if k = 187 then (561 : ℝ) else 0) + (if k = 374 then (561 : ℝ) else 0)
    rw [sig561_length]
    have hpat : ∀ n ∈ Finset.range 561,
        sig561.getD n 0 * Real.cos (-2 * Real.pi * k * n / ((561 : ℕ) : ℝ))
          = patternVal n * Real.cos (-2 * Real.pi * k * n / 561) := by
      intro n hn
      rw [Finset.mem_range] at hn
      rw [sig561_getD hn]
      norm_num
    rw [Finset.sum_congr rfl hpat, ← hre, hS]
    rw [Complex.add_re, apply_ite Complex.re, apply_ite Complex.re]
    norm_num
  · show (∑ n ∈ Finset.range sig561.length,
        sig561.getD n 0 * Real.sin (-2 * Real.pi * k * n / sig561.length)) = 0
    rw [sig561_length]
    have hpat : ∀ n ∈ Finset.range 561,
        sig561.getD n 0 * Real.sin (-2 * Real.pi * k * n / ((561 : ℕ) : ℝ))
          = patternVal n * Real.sin (-2 * Real.pi * k * n / 561) := by
      intro n hn
      rw [Finset.mem_range] at hn
      rw [sig561_getD hn]
      norm_num
    rw [Finset.sum_congr rfl hpat, ← him, hS]
    rw [Complex.add_im, apply_ite Complex.im, apply_ite Complex.im]
    norm_num

/-- Magnitudes of the test signal's DFT bins. -/
theorem magnitude_sig561 (i : ℕ) (hi : i < 561) :
    Real.sqrt ((simpleFFT sig561 i).1 ^ 2 + (simpleFFT sig561 i).2 ^ 2)
      = (if i = 187 then (561 : ℝ) else 0) + (if i = 374 then (561 : ℝ) else 0) := by
  rw [simpleFFT_sig561 i hi]
  by_cases h187 : i = 187
  · subst h187
    rw [if_pos rfl, if_neg (by norm_num)]
    show Real.sqrt (((561 : ℝ) + 0) ^ 2 + (0 : ℝ) ^ 2) = 561 + 0
    rw [show ((561 : ℝ) + 0) ^ 2 + (0 : ℝ) ^ 2 = 561 ^ 2 from by norm_num,
      Real.sqrt_sq (by norm_num)]
    norm_num
  · by_cases h374 : i = 374
    · subst h374
      rw [if_neg (by norm_num), if_pos rfl]
      show Real.sqrt (((0 : ℝ) + 561) ^ 2 + (0 : ℝ) ^ 2) = 0 + 561
      rw [show ((0 : ℝ) + 561) ^ 2 + (0 : ℝ) ^ 2 = 561 ^ 2 from by norm_num,
        Real.sqrt_sq (by norm_num)]
      norm_num
    · rw [if_neg h187, if_neg h374]
      show Real.sqrt (((0 : ℝ) + 0) ^ 2 + (0 : ℝ) ^ 2) = 0 + 0
      norm_num

/-- The spectral centroid of the test signal at 1800 Hz is 900 Hz: bins 187
(600 Hz) and 374 (1200 Hz) carry equal magnitude. -/
theorem centroid_sig561 : calculateSpectralCentroid sig561 1800 = 900 := by
  have hmin : min 2048 sig561.length = 561 := by
    rw [sig561_length]
    decide
  have htake : sig561.take 561 = sig561 := by
    conv_lhs => rw [← sig561_length]
    exact List.take_length sig561
  simp only [calculateSpectralCentroid, hmin, htake]
  have hmagsum : (∑ i ∈ Finset.range 561,
      Real.sqrt ((simpleFFT sig561 i).1 ^ 2 + (simpleFFT sig561 i).2 ^ 2)) = 1122 := by
    rw [Finset.sum_congr rfl (fun i hi => magnitude_sig561 i (Finset.mem_range.mp hi)),
      Finset.sum_add_distrib, Finset.sum_ite_eq' (Finset.range 561) 187 (fun _ => (561 : ℝ)),
      Finset.sum_ite_eq' (Finset.range 561) 374 (fun _ => (561 : ℝ))]
    norm_num
  have hwsum : (∑ i ∈ Finset.range 561,
      ((i : ℝ) * 1800 / ((561 : ℕ) : ℝ)) *
        Real.sqrt ((simpleFFT sig561 i).1 ^ 2 + (simpleFFT sig561 i).2 ^ 2)) = 1009800 := by
    have hterm : ∀ i ∈ Finset.range 561,
        ((i : ℝ) * 1800 / ((561 : ℕ) : ℝ)) *
            Real.sqrt ((simpleFFT sig561 i).1 ^ 2 + (simpleFFT sig561 i).2 ^ 2)
          = (if i = 187 then ((187 : ℝ) * 1800 / 561 * 561) else 0)
            + (if i = 374 then ((374 : ℝ) * 1800 / 561 * 561) else 0) := by
      intro i hi
      rw [magnitude_sig561 i (Finset.mem_range.mp hi), mul_add, mul_ite, mul_ite]
      by_cases h187 : i = 187
      · subst h187
        norm_num
      · by_cases h374 : i = 374
        · subst h374
          norm_num
        · rw [if_neg h187, if_neg h374, if_neg h187, if_neg h374]
          norm_num
    rw [Finset.sum_congr rfl hterm, Finset.sum_add_distrib,
      Finset.sum_ite_eq' (Finset.range 561) 187 (fun _ => ((187 : ℝ) * 1800 / 561 * 561)),
      Finset.sum_ite_eq' (Finset.range 561) 374 (fun _ => ((374 : ℝ) * 1800 / 561 * 561))]
    norm_num
  rw [hwsum, hmagsum, if_pos (by norm_num : (1122 : ℝ) > 0)]
  norm_num

/-- The concrete buffer of eleven pattern blocks validates: F0 600 Hz,
centroid 900 Hz, duration 561/1800 s. -/
theorem validate_bufferEleven : validateCryPattern bufferEleven 1800 := by
  refine ⟨?_, ?_, ?_, ?_⟩ <;>
    rw [bufferEleven_flatten]
  · rw [estimateF0_sig561]
    norm_num
  · rw [estimateF0_sig561]
    norm_num
  · rw [centroid_sig561]
    norm_num
  · rw [sig561_length]
    norm_num

/-- A detecting state reached after eleven loud pattern blocks starting at
time 0. -/
def stDetecting : CryEngineState := ⟨true, some 0, bufferEleven⟩

theorem rms_zeros_not_exceeds : ¬ rmsExceeds (calculateRMS [0, 0, 0]) cryThreshold := by
  rintro ⟨y, hy, hlt⟩
  rw [calculateRMS_zeros] at hy
  rw [← Option.some_inj.mp hy] at hlt
  norm_num [cryThreshold] at hlt

theorem stDetecting_dur : (400 - stDetecting.detectionStartTime.getD 0) / 1000 ≥ (0.3 : ℝ) := by
  show ((400 : ℝ) - (some (0 : ℝ)).getD 0) / 1000 ≥ 0.3
  norm_num

theorem stDetecting_count : stDetecting.analysisBuffer.length > 10 := by
  show bufferEleven.length > 10
  simp [bufferEleven]

/-- General form of the block-concatenation lemma: consecutive pattern
blocks whose length is a multiple of 3 continue the pattern. -/
theorem flatten_replicate_pattern (b : ℕ) (hb : b % 3 = 0) (m : ℕ) :
    (List.replicate m ((List.range b).map patternVal)).flatten
      = (List.range (b * m)).map patternVal := by
  induction m with
  | zero => simp
  | succ m ih =>
    rw [List.replicate_succ, List.flatten_cons, ih]
    have h : b * (m + 1) = b + b * m := by ring
    rw [h, List.range_add, List.map_append, List.map_map]
    congr 1
    refine List.map_congr_left fun i _ => ?_
    show patternVal i = patternVal (b + i)
    have hmod : (b + i) % 3 = i % 3 := by omega
    simp [patternVal, hmod]

/-- One 27-sample pattern block. -/
def block27 : List ℝ := (List.range 27).map patternVal

/-- The 21-sample pattern block pushed as the 21st block of the concrete
mid-accumulation run. -/
def block21 : List ℝ := (List.range 21).map patternVal

/-- Twenty buffered 27-sample pattern blocks: the pre-push buffer of the
concrete mid-accumulation run. -/
def bufferTwenty : List (List ℝ) := List.replicate 20 block27

/-- Pushing the 21-sample block onto the twenty 27-sample blocks
concatenates to the same 561-sample test signal. -/
theorem bufferTwentyOne_flatten : (bufferTwenty ++ [block21]).flatten = sig561 := by
  rw [List.flatten_append, bufferTwenty, block27,
    flatten_replicate_pattern 27 (by norm_num) 20]
  have h1 : [block21].flatten = block21 := by simp
  rw [h1, sig561, show (561 : ℕ) = 27 * 20 + 21 from by norm_num, List.range_add,
    List.map_append]
  congr 1

/-- RMS of the 21-sample pattern block: the square root of 2. -/
theorem calculateRMS_block21 : calculateRMS block21 = some (Real.sqrt 2) := by
  have hlen : block21.length = 21 := by simp [block21]
  have hper : ∀ i, patternVal (i + 3) * patternVal (i + 3)
      = patternVal i * patternVal i := by
    intro i
    rw [patternVal_add3]
  simp only [calculateRMS]
  rw [if_neg (by rw [hlen]; norm_num), hlen]
  have hterm : ∀ i ∈ Finset.range 21,
      block21.getD i 0 * block21.getD i 0 = patternVal i * patternVal i := by
    intro i hi
    rw [Finset.mem_range] at hi
    rw [show block21 = (List.range 21).map patternVal from rfl, rangeMap_getD, if_pos hi]
  rw [Finset.sum_congr rfl hterm, show (21 : ℕ) = 3 * 7 from by norm_num,
    sum_range_mul3 (fun i => patternVal i * patternVal i) hper 7]
  norm_num [patternVal]

/-- The 21-sample pattern block is well above the cry threshold. -/
theorem block21_exceeds : rmsExceeds (calculateRMS block21) cryThreshold :=
  ⟨Real.sqrt 2, calculateRMS_block21, by
    show (0.1 : ℝ) < Real.sqrt 2
    exact (Real.lt_sqrt (by norm_num)).mpr (by norm_num)⟩

/-- The detector state of the concrete mid-accumulation run: twenty loud
pattern blocks buffered since time 0. -/
def stAccum : CryEngineState := ⟨true, some 0, bufferTwenty⟩

theorem stAccum_dur : (600 - stAccum.detectionStartTime.getD 0) / 1000 ≥ (0.5 : ℝ) := by
  show ((600 : ℝ) - (some (0 : ℝ)).getD 0) / 1000 ≥ 0.5
  norm_num

theorem stAccum_count : (stAccum.analysisBuffer ++ [block21]).length > 20 := by
  show (bufferTwenty ++ [block21]).length > 20
  simp [bufferTwenty]

/-- The pushed 21-block buffer of the mid-accumulation run validates. -/
theorem validate_bufferTwentyOne : validateCryPattern (bufferTwenty ++ [block21]) 1800 := by
  refine ⟨?_, ?_, ?_, ?_⟩ <;>
    rw [bufferTwentyOne_flatten]
  · rw [estimateF0_sig561]
    norm_num
  · rw [estimateF0_sig561]
    norm_num
  · rw [centroid_sig561]
    norm_num
  · rw [sig561_length]
    norm_num

/-- Claim C1 (counterexample): at a concrete invocation of `processSample`
in which validation succeeds and the confirmation callback is invoked and
throws, the exception propagates out of `processSample` (the return is the
error, not a boolean) and the detector does not end in the idle state: it
is still detecting, with its start time and eleven-block buffer intact.
The claim's "caught at the detector boundary, always resets to Idle" is
false on the code. -/
theorem claim_C1_counterexample :
    validateCryPattern stDetecting.analysisBuffer 1800 ∧
    (processSample errCb 400 [0, 0, 0] 1800 stDetecting).emitted
        = some (detectionFeatures bufferEleven.flatten 1800) ∧
    (processSample errCb 400 [0, 0, 0] 1800 stDetecting).ret = Except.error () ∧
    (processSample errCb 400 [0, 0, 0] 1800 stDetecting).state.isDetectingCry = true ∧
    (processSample errCb 400 [0, 0, 0] 1800 stDetecting).state.detectionStartTime = some 0 ∧
    (processSample errCb 400 [0, 0, 0] 1800 stDetecting).state.analysisBuffer
        = bufferEleven := by
  have hvalid : validateCryPattern stDetecting.analysisBuffer 1800 := validate_bufferEleven
  have hstep := processSample_end_confirm errCb 400 [0, 0, 0] 1800 stDetecting rfl
    rms_zeros_not_exceeds stDetecting_dur stDetecting_count hvalid
  have herr : errCb (detectionFeatures stDetecting.analysisBuffer.flatten 1800)
      = Except.error () := rfl
  have hfinal := processCryDetection_error herr
  rw [hstep, hfinal]
  exact ⟨hvalid, rfl, rfl, rfl, rfl, rfl⟩

/-- Witness for the amended claim C1: concrete throwing runs on both
confirmation paths (end-of-activity and mid-accumulation), plus a normal
return on the mid-accumulation path, with every conclusion obtained by
applying the amended theorem. -/
theorem claim_C1_witness :
    (processSample errCb 400 [0, 0, 0] 1800 stDetecting).ret = Except.error () ∧
    (processSample errCb 400 [0, 0, 0] 1800 stDetecting).state = stDetecting ∧
    (processSample errCb 600 block21 1800 stAccum).ret = Except.error () ∧
    (processSample errCb 600 block21 1800 stAccum).state
        = ⟨true, some 0, bufferTwenty ++ [block21]⟩ ∧
    (processSample okCb 600 block21 1800 stAccum).ret = Except.ok true ∧
    (processSample okCb 600 block21 1800 stAccum).state = initEngineState := by
  have hend := (claim_C1_amended errCb 400 1800 stDetecting [0, 0, 0]).2 rfl
    rms_zeros_not_exceeds stDetecting_dur stDetecting_count validate_bufferEleven
  have hmid := (claim_C1_amended errCb 600 1800 stAccum block21).1 rfl
    block21_exceeds stAccum_dur stAccum_count validate_bufferTwentyOne
  have hmidok := (claim_C1_amended okCb 600 1800 stAccum block21).1 rfl
    block21_exceeds stAccum_dur stAccum_count validate_bufferTwentyOne
  have hendEq := hend.2.2 () rfl
  have hmidEq := hmid.2.2 () rfl
  have hmidokEq := hmidok.2.1 () rfl
  rw [hendEq, hmidEq, hmidokEq]
  exact ⟨rfl, rfl, rfl, rfl, rfl, rfl⟩

/-- When no scanned lag beats the running maximum, the fold keeps its
accumulator. -/
theorem foldl_f0Step_no_update (signal : List ℝ) :
    ∀ (ps : List ℕ) (acc : ℝ × ℕ),
      (∀ p ∈ ps, autocorr signal p ≤ acc.1) → ps.foldl (f0Step signal) acc = acc := by
  intro ps
  induction ps with
  | nil =>
    intro acc h
    rfl
  | cons p rest ih =>
    intro acc h
    rw [List.foldl_cons, f0Step, if_neg (not_lt.mpr (h p (List.mem_cons_self _ _)))]
    exact ih acc fun q hq => h q (List.mem_cons_of_mem _ hq)

/-- Invariants of the running-maximum fold: the result either is the
accumulator or records a scanned lag together with its correlation, the
running maximum never decreases, and it dominates every scanned lag's
correlation. -/
theorem foldl_f0Step_spec (signal : List ℝ) :
    ∀ (ps : List ℕ) (acc : ℝ × ℕ),
      (ps.foldl (f0Step signal) acc = acc ∨
        ((ps.foldl (f0Step signal) acc).2 ∈ ps ∧
          autocorr signal (ps.foldl (f0Step signal) acc).2
            = (ps.foldl (f0Step signal) acc).1)) ∧
      acc.1 ≤ (ps.foldl (f0Step signal) acc).1 ∧
      ∀ p ∈ ps, autocorr signal p ≤ (ps.foldl (f0Step signal) acc).1 := by
  intro ps
  induction ps with
  | nil =>
    intro acc
    refine ⟨Or.inl rfl, le_refl _, ?_⟩
    intro p hp
    simp at hp
  | cons p rest ih =>
    intro acc
    rw [List.foldl_cons]
    by_cases hc : autocorr signal p > acc.1
    · have hstep : f0Step signal acc p = (autocorr signal p, p) := if_pos hc
      rw [hstep]
      obtain ⟨ho, hle, hmax⟩ := ih (autocorr signal p, p)
      refine ⟨?_, le_trans (le_of_lt hc) hle, ?_⟩
      · rcases ho with h | h
        · right
          rw [h]
          exact ⟨List.mem_cons_self _ _, rfl⟩
        · exact Or.inr ⟨List.mem_cons_of_mem _ h.1, h.2⟩
      · intro q hq
        rcases List.mem_cons.mp hq with rfl | hq'
        · exact hle
        · exact hmax q hq'
    · have hstep : f0Step signal acc p = acc := if_neg hc
      rw [hstep]
      obtain ⟨ho, hle, hmax⟩ := ih acc
      refine ⟨?_, hle, ?_⟩
      · rcases ho with h | h
        · exact Or.inl h
        · exact Or.inr ⟨List.mem_cons_of_mem _ h.1, h.2⟩
      · intro q hq
        rcases List.mem_cons.mp hq with rfl | hq'
        · exact le_trans (not_lt.mp hc) hle
        · exact hmax q hq'

/-- Membership in the scanned-lag list. -/
theorem mem_scannedPeriods {minP maxP len p : ℕ} :
    p ∈ scannedPeriods minP maxP len ↔ minP ≤ p ∧ p ≤ maxP ∧ 2 * p < len := by
  simp only [scannedPeriods, List.mem_filter, List.mem_range, decide_eq_true_eq,
    Nat.lt_succ_iff]
  tauto

/-- Claim C7 (amended): `estimateF0` scans, with no early exit, every lag
from `⌊sampleRate/1200⌋` to `⌊sampleRate/300⌋` that is additionally below
half the signal length (the loop guard `period < signal.length / 2` that
the original claim omits); over that scanned set it returns `sampleRate`
divided by a lag of maximal autocorrelation, and it returns 0 when no
scanned lag has positive autocorrelation. -/
theorem claim_C7_amended (signal : List ℝ) (sampleRate : ℝ)
    (hmin : 1 ≤ (⌊sampleRate / 1200⌋).toNat) :
    ((∀ p, (⌊sampleRate / 1200⌋).toNat ≤ p → p ≤ (⌊sampleRate / 300⌋).toNat →
        2 * p < signal.length → autocorr signal p ≤ 0) →
      estimateF0 signal sampleRate = 0) ∧
    ((∃ p, (⌊sampleRate / 1200⌋).toNat ≤ p ∧ p ≤ (⌊sampleRate / 300⌋).toNat ∧
        2 * p < signal.length ∧ 0 < autocorr signal p) →
      ∃ b, (⌊sampleRate / 1200⌋).toNat ≤ b ∧ b ≤ (⌊sampleRate / 300⌋).toNat ∧
        2 * b < signal.length ∧ 0 < autocorr signal b ∧
        estimateF0 signal sampleRate = sampleRate / b ∧
        ∀ p, (⌊sampleRate / 1200⌋).toNat ≤ p → p ≤ (⌊sampleRate / 300⌋).toNat →
          2 * p < signal.length → autocorr signal p ≤ autocorr signal b) := by
  have hres : estimateF0 signal sampleRate
      = (if ((scannedPeriods ((⌊sampleRate / 1200⌋).toNat) ((⌊sampleRate / 300⌋).toNat)
              signal.length).foldl (f0Step signal) (0, 0)).2 > 0
          then sampleRate /
            ((scannedPeriods ((⌊sampleRate / 1200⌋).toNat) ((⌊sampleRate / 300⌋).toNat)
              signal.length).foldl (f0Step signal) (0, 0)).2
          else 0) := rfl
  constructor
  · intro hall
    have hup : ∀ p ∈ scannedPeriods ((⌊sampleRate / 1200⌋).toNat)
        ((⌊sampleRate / 300⌋).toNat) signal.length,
        autocorr signal p ≤ ((0 : ℝ), (0 : ℕ)).1 := by
      intro p hp
      rw [mem_scannedPeriods] at hp
      exact hall p hp.1 hp.2.1 hp.2.2
    rw [hres, foldl_f0Step_no_update signal _ (0, 0) hup]
    norm_num
  · rintro ⟨p0, hp0min, hp0max, hp0len, hp0pos⟩
    obtain ⟨ho, hle, hmax⟩ := foldl_f0Step_spec signal
      (scannedPeriods ((⌊sampleRate / 1200⌋).toNat) ((⌊sampleRate / 300⌋).toNat)
        signal.length) (0, 0)
    have hp0mem : p0 ∈ scannedPeriods ((⌊sampleRate / 1200⌋).toNat)
        ((⌊sampleRate / 300⌋).toNat) signal.length :=
      mem_scannedPeriods.mpr ⟨hp0min, hp0max, hp0len⟩
    have hpos : (0 : ℝ)
        < ((scannedPeriods ((⌊sampleRate / 1200⌋).toNat) ((⌊sampleRate / 300⌋).toNat)
            signal.length).foldl (f0Step signal) (0, 0)).1 :=
      lt_of_lt_of_le hp0pos (hmax p0 hp0mem)
    rcases ho with h | h
    · rw [h] at hpos
      exact absurd hpos (lt_irrefl 0)
    · obtain ⟨hbmin, hbmax, hblen⟩ := mem_scannedPeriods.mp h.1
      refine ⟨_, hbmin, hbmax, hblen, ?_, ?_, ?_⟩
      · rw [h.2]
        exact hpos
      · rw [hres, if_pos (by omega)]
      · intro p hpmin hpmax hplen
        rw [h.2]
        exact hmax p (mem_scannedPeriods.mpr ⟨hpmin, hpmax, hplen⟩)

/-- A 30-sample signal with impulses at 0 and 20: its only autocorrelation
peak in the 300-1200 Hz lag range at 12 kHz sits at lag 20, beyond half the
signal length. -/
def sig30 : List ℝ := (List.range 30).map (fun i => if i = 0 ∨ i = 20 then 1 else 0)

theorem sig30_length : sig30.length = 30 := by simp [sig30]

theorem floor_12000_1200 : (⌊(12000 : ℝ) / 1200⌋).toNat = 10 := by
  have h : (12000 : ℝ) / 1200 = ((10 : ℤ) : ℝ) := by norm_num
  rw [h, Int.floor_intCast]
  rfl

theorem floor_12000_300 : (⌊(12000 : ℝ) / 300⌋).toNat = 40 := by
  have h : (12000 : ℝ) / 300 = ((40 : ℤ) : ℝ) := by norm_num
  rw [h, Int.floor_intCast]
  rfl

theorem sig30_getD {i : ℕ} (h : i < 30) :
    sig30.getD i 0 = if i = 0 ∨ i = 20 then 1 else 0 := by
  rw [sig30, rangeMap_getD, if_pos h]

theorem autocorr_sig30_zero (p : ℕ) (hp1 : 10 ≤ p) (hp2 : p ≤ 14) :
    autocorr sig30 p = 0 := by
  rw [autocorr, sig30_length]
  apply Finset.sum_eq_zero
  intro i hi
  rw [Finset.mem_range] at hi
  rw [sig30_getD (show i < 30 by omega), sig30_getD (show i + p < 30 by omega)]
  by_cases h0 : i = 0
  · subst h0
    rw [if_pos (Or.inl rfl), if_neg (by omega), mul_zero]
  · rw [if_neg (by omega), zero_mul]

theorem autocorr_sig30_twenty : autocorr sig30 20 = 1 := by
  rw [autocorr, sig30_length]
  have h : (30 - 20 : ℕ) = 10 := by norm_num
  rw [h]
  have hterm : ∀ i ∈ Finset.range 10,
      sig30.getD i 0 * sig30.getD (i + 20) 0 = if i = 0 then 1 else 0 := by
    intro i hi
    rw [Finset.mem_range] at hi
    rw [sig30_getD (show i < 30 by omega), sig30_getD (show i + 20 < 30 by omega)]
    by_cases h0 : i = 0
    · subst h0
      rw [if_pos (Or.inl rfl), if_pos (Or.inr (show 0 + 20 = 20 by norm_num)), if_pos rfl]
      norm_num
    · rw [if_neg (by omega), zero_mul, if_neg h0]
  rw [Finset.sum_congr rfl hterm, Finset.sum_ite_eq' (Finset.range 10) 0 (fun _ => (1 : ℝ))]
  norm_num

theorem estimateF0_sig30 : estimateF0 sig30 12000 = 0 := by
  have hup : ∀ p ∈ scannedPeriods ((⌊(12000 : ℝ) / 1200⌋).toNat)
      ((⌊(12000 : ℝ) / 300⌋).toNat) sig30.length,
      autocorr sig30 p ≤ ((0 : ℝ), (0 : ℕ)).1 := by
    intro p hp
    rw [mem_scannedPeriods, floor_12000_1200, floor_12000_300, sig30_length] at hp
    exact le_of_eq (autocorr_sig30_zero p hp.1 (by omega))
  show (if ((scannedPeriods ((⌊(12000 : ℝ) / 1200⌋).toNat) ((⌊(12000 : ℝ) / 300⌋).toNat)
        sig30.length).foldl (f0Step sig30) (0, 0)).2 > 0
      then (12000 : ℝ) /
        ((scannedPeriods ((⌊(12000 : ℝ) / 1200⌋).toNat) ((⌊(12000 : ℝ) / 300⌋).toNat)
          sig30.length).foldl (f0Step sig30) (0, 0)).2
      else 0) = 0
  rw [foldl_f0Step_no_update sig30 _ (0, 0) hup]
  norm_num

/-- Claim C7 (counterexample): at 12 kHz the claimed lag range is
[10, 40], the 30-sample two-impulse signal has a strictly positive
autocorrelation at lag 20 inside that range, yet `estimateF0` returns 0
(the loop also requires `lag < length / 2 = 15`, so lag 20 is never
scanned), while the claim dictates the nonzero value `sampleRate` over the
maximal-correlation lag — the claim as stated is false. -/
theorem claim_C7_counterexample :
    estimateF0 sig30 12000 = 0 ∧
    (⌊(12000 : ℝ) / 1200⌋).toNat = 10 ∧
    (⌊(12000 : ℝ) / 300⌋).toNat = 40 ∧
    autocorr sig30 20 = 1 ∧
    ¬ (∀ p, 10 ≤ p → p ≤ 40 → autocorr sig30 p ≤ 0) ∧
    (12000 : ℝ) / 20 = 600 ∧ (600 : ℝ) ≠ 0 := by
  refine ⟨estimateF0_sig30, floor_12000_1200, floor_12000_300, autocorr_sig30_twenty,
    ?_, by norm_num, by norm_num⟩
  intro hall
  have h := hall 20 (by norm_num) (by norm_num)
  rw [autocorr_sig30_twenty] at h
  norm_num at h

/-- Witness for the amended claim C7, exercising both conclusions: the
all-nonpositive branch on the two-impulse signal (result 0) and the
positive branch on the pattern signal (nonzero result). -/
theorem claim_C7_witness :
    estimateF0 sig30 12000 = 0 ∧ estimateF0 sig561 1800 ≠ 0 := by
  constructor
  · refine (claim_C7_amended sig30 12000 (by rw [floor_12000_1200]; norm_num)).1 ?_
    intro p hp1 hp2 hplen
    rw [floor_12000_1200] at hp1
    rw [sig30_length] at hplen
    exact le_of_eq (autocorr_sig30_zero p hp1 (by omega))
  · obtain ⟨b, hb1, hb2, hb3, hbpos, heq, hmax⟩ :=
      (claim_C7_amended sig561 1800 (by rw [floor_1800_1200])).2
        ⟨3, by rw [floor_1800_1200]; norm_num, by rw [floor_1800_300]; norm_num,
          by rw [sig561_length]; norm_num, by rw [autocorr_sig561_three]; norm_num⟩
    rw [floor_1800_1200] at hb1
    rw [heq]
    exact div_ne_zero (by norm_num) (Nat.cast_ne_zero.mpr (by omega))

end
